import Mathlib

/-!
# Verification of the LeGO-LOAM `ImageProjection` front end

A shallow embedding, in Lean 4, of the range-image projection, ground
classification, BFS segmentation and emission code of `imageProjection.cpp`
(class `ImageProjection`), together with the configuration constants of
`utility.h`.

Modelling conventions:

* Machine floating-point numbers are modelled as exact rationals `ℚ`.
  `FLT_MAX` becomes the exact value of the largest finite `float`.
* Transcendental library calls (`atan2`, `sin`, `cos`, `sqrt`) have no
  computable exact counterpart on `ℚ`; every such call site is abstracted
  into an *oracle parameter* (a function argument standing for the value the
  library call returns, or for the boolean outcome of the comparison it
  feeds).  Each oracle is documented at its declaration.  Theorems quantify
  over all oracles whenever the property does not depend on the numeric
  values; concrete instantiations are justified where they are used.
* Azimuths in `findStartEndAngle` are measured in units of π (a stored value
  `q` stands for `q·π` radians).  The function only compares angles against
  `π` and `3π` and shifts them by `2π`, so this rescaling is exact and keeps
  the embedding inside `ℚ`.
* The `cv::Mat` grids become functions `Int → Int → _`; the flat point
  buffers become functions `Int → _`; `std::vector` outputs become `List`s.
  Writing a cell is functional update.
* The fixed scratch arrays (`queueIndX/Y`, `allPushedIndX/Y`) of
  `labelComponents` become functions `Nat → Int` updated at the same indices
  the source writes.
* The one unbounded loop (`while (queueSize > 0)` in `labelComponents`) is
  given explicit fuel.  The caller passes `N_SCAN * Horizon_SCAN + 1` fuel;
  concrete runs check `queueSize = 0` on the final state to certify that the
  loop in fact terminated within that fuel.
-/

set_option autoImplicit false

namespace LegoLoam

/-! ## Configuration constants (`utility.h`, VLP-16 block) -/

/-- `extern const bool useCloudRing = true` -/
def useCloudRing : Bool := true

/-- `extern const int N_SCAN = 16` -/
def N_SCAN : Int := 16

/-- `extern const int Horizon_SCAN = 1800` -/
def Horizon_SCAN : Int := 1800

/-- `extern const float ang_res_x = 0.2` -/
def ang_res_x : ℚ := 2/10

/-- `extern const float ang_res_y = 2.0` -/
def ang_res_y : ℚ := 2

/-- `extern const float ang_bottom = 15.0+0.1` -/
def ang_bottom : ℚ := 151/10

/-- `extern const int groundScanInd = 7` -/
def groundScanInd : Int := 7

/-- `extern const float sensorMinimumRange = 1.0` -/
def sensorMinimumRange : ℚ := 1

/-- `extern const float sensorMountAngle = 0.0` -/
def sensorMountAngle : ℚ := 0

/-- `extern const int segmentValidPointNum = 5` -/
def segmentValidPointNum : Nat := 5

/-- `extern const int segmentValidLineNum = 3` -/
def segmentValidLineNum : Nat := 3

/-- The largest finite IEEE-754 single-precision value, the value of
`FLT_MAX` with which `rangeMat` is initialised. -/
def FLT_MAX : ℚ := (2 ^ 128 - 2 ^ 104 : ℤ)

/-- The label value `999999` used by `labelComponents` for rejected
(outlier) clusters. -/
def SENTINEL_DROP : Int := 999999

/-! ## Points and grids -/

/-- A `PointType` (pcl `PointXYZI`): coordinates and intensity, as exact
rationals. -/
structure Pt where
  x : ℚ
  y : ℚ
  z : ℚ
  intensity : ℚ
  deriving DecidableEq, Repr

/-- The fill value `nanPoint` of the organized clouds.  The source stores
quiet NaNs in `x`, `y`, `z` and `-1` in `intensity`; `ℚ` has no NaN, and the
pipeline identifies the sentinel solely through `intensity == -1`
(`groundRemoval`), so the coordinates are modelled as `0`. -/
def nanPoint : Pt := ⟨0, 0, 0, -1⟩

/-- Functional update of a one-index buffer. -/
def upd1 {α : Type} (f : Int → α) (i : Int) (v : α) : Int → α :=
  fun i' => if i' = i then v else f i'

/-- Functional update of a two-index grid (`cv::Mat::at`). -/
def upd2 {α : Type} (g : Int → Int → α) (r c : Int) (v : α) : Int → Int → α :=
  fun r' c' => if r' = r ∧ c' = c then v else g r' c'

/-- Functional update of a `Nat`-indexed scratch array. -/
def updN {α : Type} (f : Nat → α) (i : Nat) (v : α) : Nat → α :=
  fun i' => if i' = i then v else f i'

/-! ## The mutable state of `ImageProjection`

One record holding every field of the class that the pipeline reads or
writes, plus the `cloud_msgs::cloud_info segMsg` fields. -/

structure IPState where
  /-- `laserCloudIn` after `fromROSMsg`/`removeNaNFromPointCloud`. -/
  laserCloudIn : List Pt
  /-- the `ring` channel of `laserCloudInRing`, indexed in parallel with
  `laserCloudIn`. -/
  laserCloudInRing : Nat → Int
  /-- `rangeMat` (`CV_32F`, default `FLT_MAX`). -/
  rangeMat : Int → Int → ℚ
  /-- `groundMat` (`CV_8S`, default `0`). -/
  groundMat : Int → Int → Int
  /-- `labelMat` (`CV_32S`, default `0`). -/
  labelMat : Int → Int → Int
  /-- `labelCount` (reset to `1`). -/
  labelCount : Int
  /-- `fullCloud->points`, flat buffer of `N_SCAN*Horizon_SCAN` points. -/
  fullCloud : Int → Pt
  /-- `fullInfoCloud->points`. -/
  fullInfoCloud : Int → Pt
  groundCloud : List Pt
  segmentedCloud : List Pt
  segmentedCloudPure : List Pt
  outlierCloud : List Pt
  /-- `segMsg.startOrientation`, in units of π. -/
  startOrientation : ℚ
  /-- `segMsg.endOrientation`, in units of π. -/
  endOrientation : ℚ
  /-- `segMsg.orientationDiff`, in units of π. -/
  orientationDiff : ℚ
  /-- `segMsg.startRingIndex` (allocated with `N_SCAN` zeros). -/
  startRingIndex : Int → Int
  /-- `segMsg.endRingIndex`. -/
  endRingIndex : Int → Int
  /-- `segMsg.segmentedCloudGroundFlag` (allocated with
  `N_SCAN*Horizon_SCAN` `false`s). -/
  segmentedCloudGroundFlag : Nat → Bool
  /-- `segMsg.segmentedCloudColInd`. -/
  segmentedCloudColInd : Nat → Int
  /-- `segMsg.segmentedCloudRange`. -/
  segmentedCloudRange : Nat → ℚ

/-- The state the constructor establishes: `allocateMemory` (which zeroes the
`segMsg` vectors and sizes the buffers) followed by `resetParameters`
(modelled below; the grid/cloud fields listed here are then immediately
overwritten by it, so their values here are the allocation defaults). -/
def allocatedState : IPState where
  laserCloudIn := []
  laserCloudInRing := fun _ => 0
  rangeMat := fun _ _ => FLT_MAX
  groundMat := fun _ _ => 0
  labelMat := fun _ _ => 0
  labelCount := 1
  fullCloud := fun _ => nanPoint
  fullInfoCloud := fun _ => nanPoint
  groundCloud := []
  segmentedCloud := []
  segmentedCloudPure := []
  outlierCloud := []
  startOrientation := 0
  endOrientation := 0
  orientationDiff := 0
  startRingIndex := fun _ => 0
  endRingIndex := fun _ => 0
  segmentedCloudGroundFlag := fun _ => false
  segmentedCloudColInd := fun _ => 0
  segmentedCloudRange := fun _ => 0

/-- `resetParameters()`: clears the input and output clouds, re-initialises
the three grids and `labelCount`, and refills both full clouds with
`nanPoint`.  It does **not** touch the `segMsg` vectors
(`startRingIndex`, `endRingIndex`, `segmentedCloudGroundFlag`,
`segmentedCloudColInd`, `segmentedCloudRange`) nor the orientation fields:
those are assigned only in `allocateMemory` / by later pipeline stages. -/
def resetParameters (s : IPState) : IPState :=
  { s with
    laserCloudIn := []
    groundCloud := []
    segmentedCloud := []
    segmentedCloudPure := []
    outlierCloud := []
    rangeMat := fun _ _ => FLT_MAX
    groundMat := fun _ _ => 0
    labelMat := fun _ _ => 0
    labelCount := 1
    fullCloud := fun _ => nanPoint
    fullInfoCloud := fun _ => nanPoint }

/-! ## Ingest (`copyPointCloud`) -/

/-- The input handed to `cloudHandler`: the deserialized point batch (already
finite — `removeNaNFromPointCloud` is the identity in the exact-rational
model, since `ℚ` has no NaN), the parallel `ring` channel, and the
`is_dense` flag of the ring-bearing message. -/
structure InputScan where
  points : List Pt
  rings : Nat → Int
  isDense : Bool

/-- `copyPointCloud`: stores the converted cloud and ring channel in the
state and reports whether the source's fatal branch fired.  When
`useCloudRing` is true and the incoming batch is not dense the source logs
`ROS_ERROR(...)` and calls `ros::shutdown()`; crucially it then **returns
normally**, so `cloudHandler` continues through the whole pipeline.  The
returned `Bool` records that the shutdown request was issued. -/
def copyPointCloud (inp : InputScan) (s : IPState) : IPState × Bool :=
  ({ s with laserCloudIn := inp.points, laserCloudInRing := inp.rings },
   useCloudRing && !inp.isDense)

/-! ## Azimuth bracket (`findStartEndAngle`)

Angles are carried in units of π.  The source computes
`startOrientation = -atan2(p0.y, p0.x)` and
`endOrientation = -atan2(pl.y, pl.x) + 2π` for the first and last points of
`laserCloudIn`, then normalizes `endOrientation` so the difference lies
around one revolution.  `atan2` is abstracted into the oracle `at2`:
`at2 y x` stands for `atan2(y, x) / π`, so it takes values in `(-1, 1]`. -/

/-- Reference values of `atan2(y, x) / π` on the coordinate axes, where the
function is exact: `atan2(0, x) = 0` for `x > 0`, `atan2(0, x) = π` for
`x < 0`, `atan2(y, 0) = ±π/2` for `±y > 0`.  Used to instantiate the azimuth
oracle at axis-aligned concrete inputs (the off-axis fallback value is never
exercised there). -/
def atan2PiAxis (y x : ℚ) : ℚ :=
  if y = 0 ∧ 0 < x then 0
  else if y = 0 ∧ x < 0 then 1
  else if x = 0 ∧ 0 < y then 1/2
  else if x = 0 ∧ y < 0 then -(1/2)
  else 0

/-- `findStartEndAngle`, for a non-empty input cloud with first point `p0`
and last point `pl` (the source indexes `points[0]` and
`points[size - 1]`). -/
def findStartEndAngleAux (at2 : ℚ → ℚ → ℚ) (p0 pl : Pt) (s : IPState) :
    IPState :=
  let startO : ℚ := -(at2 p0.y p0.x)
  let endO0 : ℚ := -(at2 pl.y pl.x) + 2
  let endO : ℚ :=
    if endO0 - startO > 3 then endO0 - 2
    else if endO0 - startO < 1 then endO0 + 2
    else endO0
  { s with
    startOrientation := startO
    endOrientation := endO
    orientationDiff := endO - startO }

/-- `findStartEndAngle` as invoked by `cloudHandler`.  On an empty input
cloud the source reads `points[0]` and `points[size - 1]` out of bounds
(`size - 1` underflows); that access is undefined behaviour, modelled here
as leaving the orientation fields unchanged.  No later pipeline stage reads
them. -/
def findStartEndAngle (at2 : ℚ → ℚ → ℚ) (s : IPState) : IPState :=
  match s.laserCloudIn with
  | [] => s
  | p0 :: rest => findStartEndAngleAux at2 p0 (rest.getLastD p0) s

/-! ## Projection (`projectPointCloud`) -/

/-- Oracles for the transcendental calls of `projectPointCloud`:
* `verticalAngleDeg x y z` stands for
  `atan2(z, sqrt(x*x + y*y)) * 180 / M_PI` (only reached when
  `useCloudRing` is false);
* `horizonAngleDeg x y` stands for `atan2(x, y) * 180 / M_PI`, a value in
  `(-180, 180]`;
* `norm3 x y z` stands for `sqrt(x*x + y*y + z*z)`, a non-negative value. -/
structure ProjOracle where
  verticalAngleDeg : ℚ → ℚ → ℚ → ℚ
  horizonAngleDeg : ℚ → ℚ → ℚ
  norm3 : ℚ → ℚ → ℚ → ℚ

/-- C `round`: round half away from zero, as applied to the exact rational
value of the argument. -/
def roundC (q : ℚ) : Int := if 0 ≤ q then ⌊q + 1/2⌋ else ⌈q - 1/2⌉

/-- The encoded cell key written into `fullCloud` intensities:
`(float)rowIdn + (float)columnIdn / 10000.0`. -/
def encodeIntensity (r c : Int) : ℚ := (r : ℚ) + (c : ℚ) / 10000

/-- Decoding of the row from an encoded intensity, as downstream feature
extraction performs it.  Modelled from the spec: the decoder
(`r = floor(intensity)`) lives in the feature-extraction stage, whose source
is not part of this repository slice. -/
def decodeRow (q : ℚ) : Int := ⌊q⌋

/-- Decoding of the column from an encoded intensity.  Modelled from the
spec: `c = round((intensity - floor(intensity)) * 10000)`. -/
def decodeCol (q : ℚ) : Int := roundC ((q - ⌊q⌋) * 10000)

/-- The body of the projection loop for input index `i` holding point
`thisPoint = laserCloudIn->points[i]`: row from the ring channel (or from
the elevation when `useCloudRing` is false — the float-to-`size_t`
conversion truncates), column from the azimuth, dropping guards, then the
three writes. -/
def projectOnePoint (orc : ProjOracle) (ringOf : Nat → Int) (i : Nat)
    (p : Pt) (s : IPState) : IPState :=
  let rowIdn : Int :=
    if useCloudRing then ringOf i
    else ⌊(orc.verticalAngleDeg p.x p.y p.z + ang_bottom) / ang_res_y⌋
  if rowIdn < 0 ∨ rowIdn ≥ N_SCAN then s
  else
    let horizonAngle := orc.horizonAngleDeg p.x p.y
    let columnIdn0 : Int :=
      -(roundC ((horizonAngle - 90) / ang_res_x)) + Horizon_SCAN / 2
    let columnIdn : Int :=
      if columnIdn0 ≥ Horizon_SCAN then columnIdn0 - Horizon_SCAN
      else columnIdn0
    if columnIdn < 0 ∨ columnIdn ≥ Horizon_SCAN then s
    else
      let range := orc.norm3 p.x p.y p.z
      if range < sensorMinimumRange then s
      else
        let thisPoint : Pt := { p with intensity := encodeIntensity rowIdn columnIdn }
        let index := columnIdn + rowIdn * Horizon_SCAN
        { s with
          rangeMat := upd2 s.rangeMat rowIdn columnIdn range
          fullCloud := upd1 s.fullCloud index thisPoint
          fullInfoCloud := upd1 s.fullInfoCloud index { thisPoint with intensity := range } }

/-- `projectPointCloud`: fold the per-point body over the input cloud in
order. -/
def projectPointCloud (orc : ProjOracle) (s : IPState) : IPState :=
  (s.laserCloudIn.enum.foldl
    (fun st pi => projectOnePoint orc s.laserCloudInRing pi.1 pi.2 st) s)

/-! ## Ground classification (`groundRemoval`) -/

/-- Oracle for the inclination test of `groundRemoval`: `gate lower upper`
stands for
`abs(atan2(diffZ, sqrt(diffX*diffX + diffY*diffY)) * 180 / M_PI - sensorMountAngle) <= 10`
computed from the two points `fullCloud->points[lowerInd]` and
`fullCloud->points[upperInd]`. -/
def GroundGate : Type := Pt → Pt → Bool

/-- One iteration of the first `groundRemoval` loop, at row `i` and column
`j`: if either vertical neighbour is the empty sentinel
(`intensity == -1`), mark `(i,j)` invalid; otherwise, when the inclination
between the two points is within 10° of the mount angle, mark both `(i,j)`
and `(i+1,j)` as ground. -/
def groundOnePair (gate : GroundGate) (full : Int → Pt)
    (g : Int → Int → Int) (i j : Int) : Int → Int → Int :=
  let lowerInd := j + i * Horizon_SCAN
  let upperInd := j + (i + 1) * Horizon_SCAN
  if (full lowerInd).intensity = -1 ∨ (full upperInd).intensity = -1 then
    upd2 g i j (-1)
  else if gate (full lowerInd) (full upperInd) then
    upd2 (upd2 g i j 1) (i + 1) j 1
  else g

/-- The first `groundRemoval` pass: `for j < Horizon_SCAN, for i <
groundScanInd`, in source iteration order (the order matters: iteration
`i` can overwrite the `(i+1,j)` mark of iteration `i-1`). -/
def groundPass1 (gate : GroundGate) (full : Int → Pt)
    (g0 : Int → Int → Int) : Int → Int → Int :=
  (List.range Horizon_SCAN.toNat).foldl
    (fun g (j : Nat) =>
      (List.range groundScanInd.toNat).foldl
        (fun g (i : Nat) => groundOnePair gate full g (i : Int) (j : Int)) g)
    g0

/-- The second `groundRemoval` pass: `labelMat.at(i,j) = -1` for every cell
of the `N_SCAN × Horizon_SCAN` grid with `groundMat == 1` or
`rangeMat == FLT_MAX`.  Each loop iteration writes only its own cell and
reads only `groundMat`/`rangeMat`, so the loop is exactly this per-cell
map. -/
def markGroundAndInvalid (ground : Int → Int → Int) (range : Int → Int → ℚ)
    (label : Int → Int → Int) : Int → Int → Int :=
  fun i j =>
    if 0 ≤ i ∧ i < N_SCAN ∧ 0 ≤ j ∧ j < Horizon_SCAN ∧
        (ground i j = 1 ∨ range i j = FLT_MAX) then -1
    else label i j

/-- The ground-cloud extraction at the end of `groundRemoval` (guarded by
`pubGroundCloud.getNumSubscribers() != 0`): rows `0 .. groundScanInd`
inclusive, pushing every `groundMat == 1` cell's point. -/
def extractGroundCloud (ground : Int → Int → Int) (full : Int → Pt) :
    List Pt :=
  (List.range (groundScanInd.toNat + 1)).foldl
    (fun acc (i : Nat) =>
      (List.range Horizon_SCAN.toNat).foldl
        (fun acc (j : Nat) =>
          if ground (i : Int) (j : Int) = 1 then
            acc ++ [full ((j : Int) + (i : Int) * Horizon_SCAN)]
          else acc)
        acc)
    []

/-- `groundRemoval`: first pass over the bottom rows, then the
label-marking pass, then (when subscribed) the ground-cloud extraction. -/
def groundRemoval (gate : GroundGate) (groundSubscribed : Bool)
    (s : IPState) : IPState :=
  let g := groundPass1 gate s.fullCloud s.groundMat
  let l := markGroundAndInvalid g s.rangeMat s.labelMat
  { s with
    groundMat := g
    labelMat := l
    groundCloud :=
      if groundSubscribed then
        s.groundCloud ++ extractGroundCloud g s.fullCloud
      else s.groundCloud }

/-! ## BFS cluster labeling (`labelComponents`) -/

/-- Oracles for the angular link predicate of `labelComponents`:
`gateX d1 d2` stands for
`atan2(d2*sin(segmentAlphaX), d1 - d2*cos(segmentAlphaX)) > segmentTheta`
(used when the neighbour offset has `first == 0`, i.e. the neighbour is in
the same row), and `gateY d1 d2` for the same expression with
`segmentAlphaY` (vertical neighbours). -/
structure SegOracle where
  gateX : ℚ → ℚ → Bool
  gateY : ℚ → ℚ → Bool

/-- `neighborIterator`, filled by `allocateMemory`:
`[(-1,0), (0,1), (0,-1), (1,0)]`. -/
def neighborIterator : List (Int × Int) := [(-1, 0), (0, 1), (0, -1), (1, 0)]

/-- The local state of one `labelComponents` call: `labelMat` plus the
scratch queue/`allPushed` arrays, their cursors, and `lineCountFlag`. -/
structure BfsState where
  labelMat : Int → Int → Int
  queueIndX : Nat → Int
  queueIndY : Nat → Int
  queueSize : Nat
  queueStartInd : Nat
  queueEndInd : Nat
  allPushedIndX : Nat → Int
  allPushedIndY : Nat → Int
  allPushedIndSize : Nat
  lineCountFlag : Int → Bool

/-- The state `labelComponents(row, col)` sets up before its loop: the seed
is placed at index 0 of both scratch arrays, the queue holds one element,
and all `lineCountFlag` entries are `false`. -/
def initBfs (label : Int → Int → Int) (row col : Int) : BfsState where
  labelMat := label
  queueIndX := updN (fun _ => 0) 0 row
  queueIndY := updN (fun _ => 0) 0 col
  queueSize := 1
  queueStartInd := 0
  queueEndInd := 1
  allPushedIndX := updN (fun _ => 0) 0 row
  allPushedIndY := updN (fun _ => 0) 0 col
  allPushedIndSize := 1
  lineCountFlag := fun _ => false

/-- The body of the neighbour loop for offset `d` around the popped cell
`(fromIndX, fromIndY)`: row bound check (rows do not wrap), column wrap,
skip already-labelled cells, then the angular link test; on success the
neighbour is enqueued, labelled `lc`, recorded in `allPushed`, and its row
is flagged in `lineCountFlag`. -/
def processNeighbor (orc : SegOracle) (range : Int → Int → ℚ) (lc : Int)
    (fromIndX fromIndY : Int) (b : BfsState) (d : Int × Int) : BfsState :=
  let thisIndX := fromIndX + d.1
  let thisIndY0 := fromIndY + d.2
  if thisIndX < 0 ∨ thisIndX ≥ N_SCAN then b
  else
    let thisIndY :=
      if thisIndY0 < 0 then Horizon_SCAN - 1
      else if thisIndY0 ≥ Horizon_SCAN then 0
      else thisIndY0
    if b.labelMat thisIndX thisIndY ≠ 0 then b
    else
      let d1 := max (range fromIndX fromIndY) (range thisIndX thisIndY)
      let d2 := min (range fromIndX fromIndY) (range thisIndX thisIndY)
      let ok := if d.1 = 0 then orc.gateX d1 d2 else orc.gateY d1 d2
      if ok then
        { labelMat := upd2 b.labelMat thisIndX thisIndY lc
          queueIndX := updN b.queueIndX b.queueEndInd thisIndX
          queueIndY := updN b.queueIndY b.queueEndInd thisIndY
          queueSize := b.queueSize + 1
          queueStartInd := b.queueStartInd
          queueEndInd := b.queueEndInd + 1
          allPushedIndX := updN b.allPushedIndX b.allPushedIndSize thisIndX
          allPushedIndY := updN b.allPushedIndY b.allPushedIndSize thisIndY
          allPushedIndSize := b.allPushedIndSize + 1
          lineCountFlag := upd1 b.lineCountFlag thisIndX true }
      else b

/-- One iteration of the BFS `while` loop: pop the front cell, mark it with
the current `labelCount`, and run the neighbour loop. -/
def bfsStep (orc : SegOracle) (range : Int → Int → ℚ) (lc : Int)
    (b : BfsState) : BfsState :=
  let fromIndX := b.queueIndX b.queueStartInd
  let fromIndY := b.queueIndY b.queueStartInd
  let b1 :=
    { b with
      queueSize := b.queueSize - 1
      queueStartInd := b.queueStartInd + 1
      labelMat := upd2 b.labelMat fromIndX fromIndY lc }
  neighborIterator.foldl (processNeighbor orc range lc fromIndX fromIndY) b1

/-- The `while (queueSize > 0)` loop, with explicit fuel. -/
def bfsLoop (orc : SegOracle) (range : Int → Int → ℚ) (lc : Int) :
    Nat → BfsState → BfsState
  | 0, b => b
  | fuel + 1, b =>
    if b.queueSize = 0 then b
    else bfsLoop orc range lc fuel (bfsStep orc range lc b)

/-- Fuel passed to `bfsLoop`.  The loop performs one iteration per pop, each
pushed cell is popped once, and a cell is pushed only while its label is
`0` (after which it is labelled), so at most `N_SCAN * Horizon_SCAN` cells
are ever queued; this fuel is never exhausted on a grid-shaped state. -/
def bfsFuel : Nat := (N_SCAN * Horizon_SCAN).toNat + 1

/-- The `lineCount` computed after the BFS loop: the number of rows whose
`lineCountFlag` is set. -/
def lineCountOf (b : BfsState) : Nat :=
  ((List.range N_SCAN.toNat).filter fun i => b.lineCountFlag (i : Int)).length

/-- The cluster-acceptance decision of `labelComponents`: at least 30 cells,
or at least `segmentValidPointNum` cells spanning at least
`segmentValidLineNum` flagged rows. -/
def feasibleOf (b : BfsState) : Bool :=
  if 30 ≤ b.allPushedIndSize then true
  else if segmentValidPointNum ≤ b.allPushedIndSize then
    decide (segmentValidLineNum ≤ lineCountOf b)
  else false

/-- The rejection loop: every cell recorded in `allPushed` is relabelled
`999999`. -/
def rejectRelabel (b : BfsState) : Int → Int → Int :=
  (List.range b.allPushedIndSize).foldl
    (fun lm k => upd2 lm (b.allPushedIndX k) (b.allPushedIndY k) SENTINEL_DROP)
    b.labelMat

/-- The part of the `ImageProjection` state that `labelComponents` can
modify. -/
structure LabelState where
  labelMat : Int → Int → Int
  labelCount : Int

/-- `labelComponents(row, col)`: run the BFS from the seed, then either
accept the cluster (incrementing `labelCount`) or relabel every pushed cell
to `999999`. -/
def labelComponents (orc : SegOracle) (range : Int → Int → ℚ)
    (row col : Int) (ls : LabelState) : LabelState :=
  let b := bfsLoop orc range ls.labelCount bfsFuel (initBfs ls.labelMat row col)
  if feasibleOf b then ⟨b.labelMat, ls.labelCount + 1⟩
  else ⟨rejectRelabel b, ls.labelCount⟩

/-! ## Segmentation and emission (`cloudSegmentation`) -/

/-- The labelling phase of `cloudSegmentation`: visit all cells in
row-major order and launch `labelComponents` on each still-unlabelled
(`labelMat == 0`) cell. -/
def segmentAll (orc : SegOracle) (range : Int → Int → ℚ)
    (ls : LabelState) : LabelState :=
  (List.range N_SCAN.toNat).foldl
    (fun ls (i : Nat) =>
      (List.range Horizon_SCAN.toNat).foldl
        (fun ls (j : Nat) =>
          if ls.labelMat (i : Int) (j : Int) = 0 then
            labelComponents orc range (i : Int) (j : Int) ls
          else ls)
        ls)
    ls

/-- The accumulator of the emission loop: `sizeOfSegCloud` plus every
output it writes. -/
structure EmitState where
  sizeOfSegCloud : Int
  startRingIndex : Int → Int
  endRingIndex : Int → Int
  segmentedCloudGroundFlag : Nat → Bool
  segmentedCloudColInd : Nat → Int
  segmentedCloudRange : Nat → ℚ
  segmentedCloud : List Pt
  outlierCloud : List Pt

/-- The body of the emission loop at cell `(i, j)`: outer admission test
`labelMat > 0 || groundMat == 1`; rejected-cluster cells
(`labelMat == 999999`) go to the outlier cloud exactly when
`i > groundScanInd && j % 5 == 0` and are otherwise skipped; ground cells
are decimated (`j%5!=0 && j>5 && j<Horizon_SCAN-5` skips); every survivor
is appended to the segmented cloud with its metadata. -/
def emitCell (label ground : Int → Int → Int) (range : Int → Int → ℚ)
    (full : Int → Pt) (i : Int) (e : EmitState) (j : Int) : EmitState :=
  if label i j > 0 ∨ ground i j = 1 then
    if label i j = SENTINEL_DROP then
      if groundScanInd < i ∧ j % 5 = 0 then
        { e with outlierCloud := e.outlierCloud ++ [full (j + i * Horizon_SCAN)] }
      else e
    else if ground i j = 1 ∧ (j % 5 ≠ 0 ∧ 5 < j ∧ j < Horizon_SCAN - 5) then e
    else
      { e with
        segmentedCloudGroundFlag :=
          updN e.segmentedCloudGroundFlag e.sizeOfSegCloud.toNat
            (decide (ground i j = 1))
        segmentedCloudColInd :=
          updN e.segmentedCloudColInd e.sizeOfSegCloud.toNat j
        segmentedCloudRange :=
          updN e.segmentedCloudRange e.sizeOfSegCloud.toNat (range i j)
        segmentedCloud := e.segmentedCloud ++ [full (j + i * Horizon_SCAN)]
        sizeOfSegCloud := e.sizeOfSegCloud + 1 }
  else e

/-- One row of the emission loop: record `startRingIndex[i]`, walk the
columns, record `endRingIndex[i]`. -/
def emitRow (label ground : Int → Int → Int) (range : Int → Int → ℚ)
    (full : Int → Pt) (e : EmitState) (i : Int) : EmitState :=
  let e1 :=
    { e with startRingIndex := upd1 e.startRingIndex i (e.sizeOfSegCloud - 1 + 5) }
  let e2 :=
    (List.range Horizon_SCAN.toNat).foldl
      (fun e (j : Nat) => emitCell label ground range full i e (j : Int)) e1
  { e2 with endRingIndex := upd1 e2.endRingIndex i (e2.sizeOfSegCloud - 1 - 5) }

/-- The full emission loop over all rows. -/
def emitAll (label ground : Int → Int → Int) (range : Int → Int → ℚ)
    (full : Int → Pt) (e : EmitState) : EmitState :=
  (List.range N_SCAN.toNat).foldl
    (fun e (i : Nat) => emitRow label ground range full e (i : Int)) e

/-- The `segmentedCloudPure` extraction (guarded by
`pubSegmentedCloudPure.getNumSubscribers() != 0`): every cell with a
positive non-`999999` label, its point's intensity overwritten with the
cluster label. -/
def pureCloudOf (label : Int → Int → Int) (full : Int → Pt) : List Pt :=
  (List.range N_SCAN.toNat).foldl
    (fun acc (i : Nat) =>
      (List.range Horizon_SCAN.toNat).foldl
        (fun acc (j : Nat) =>
          if label (i : Int) (j : Int) > 0 ∧
              label (i : Int) (j : Int) ≠ SENTINEL_DROP then
            acc ++ [{ full ((j : Int) + (i : Int) * Horizon_SCAN) with
                      intensity := (label (i : Int) (j : Int) : ℚ) }]
          else acc)
        acc)
    []

/-- The initial emission accumulator of `cloudSegmentation`:
`sizeOfSegCloud = 0`, the `segMsg` vectors and the clouds as the state
holds them. -/
def emitInit (s : IPState) : EmitState :=
  { sizeOfSegCloud := 0
    startRingIndex := s.startRingIndex
    endRingIndex := s.endRingIndex
    segmentedCloudGroundFlag := s.segmentedCloudGroundFlag
    segmentedCloudColInd := s.segmentedCloudColInd
    segmentedCloudRange := s.segmentedCloudRange
    segmentedCloud := s.segmentedCloud
    outlierCloud := s.outlierCloud }

/-- `cloudSegmentation`: the labelling phase, the emission loop, and the
pure-cloud extraction. -/
def cloudSegmentation (orc : SegOracle) (pureSubscribed : Bool)
    (s : IPState) : IPState :=
  let ls := segmentAll orc s.rangeMat ⟨s.labelMat, s.labelCount⟩
  let e := emitAll ls.labelMat s.groundMat s.rangeMat s.fullCloud (emitInit s)
  { s with
    labelMat := ls.labelMat
    labelCount := ls.labelCount
    startRingIndex := e.startRingIndex
    endRingIndex := e.endRingIndex
    segmentedCloudGroundFlag := e.segmentedCloudGroundFlag
    segmentedCloudColInd := e.segmentedCloudColInd
    segmentedCloudRange := e.segmentedCloudRange
    segmentedCloud := e.segmentedCloud
    outlierCloud := e.outlierCloud
    segmentedCloudPure :=
      if pureSubscribed then
        s.segmentedCloudPure ++ pureCloudOf ls.labelMat s.fullCloud
      else s.segmentedCloudPure }

/-! ## Publish and handler (`publishCloud`, `cloudHandler`) -/

/-- What one invocation of `publishCloud` sends out unconditionally: the
`segMsg` record and the outlier and segmented clouds (the remaining clouds
are gated by subscriber counts and carry no additional information). -/
structure ScanOutputs where
  startOrientation : ℚ
  endOrientation : ℚ
  orientationDiff : ℚ
  startRingIndex : Int → Int
  endRingIndex : Int → Int
  segmentedCloudGroundFlag : Nat → Bool
  segmentedCloudColInd : Nat → Int
  segmentedCloudRange : Nat → ℚ
  outlierCloud : List Pt
  segmentedCloud : List Pt

/-- `publishCloud`: the source publishes unconditionally at the end of every
`cloudHandler` call.  The `Option` result type exists so that an aborted,
unemitted scan would be expressible as `none`; the source never produces
that case. -/
def publishCloud (s : IPState) : Option ScanOutputs :=
  some
    { startOrientation := s.startOrientation
      endOrientation := s.endOrientation
      orientationDiff := s.orientationDiff
      startRingIndex := s.startRingIndex
      endRingIndex := s.endRingIndex
      segmentedCloudGroundFlag := s.segmentedCloudGroundFlag
      segmentedCloudColInd := s.segmentedCloudColInd
      segmentedCloudRange := s.segmentedCloudRange
      outlierCloud := s.outlierCloud
      segmentedCloud := s.segmentedCloud }

/-- All oracle parameters of one pipeline invocation, plus the two
subscriber-count gates the source consults. -/
structure Oracles where
  at2 : ℚ → ℚ → ℚ
  proj : ProjOracle
  groundGate : GroundGate
  seg : SegOracle
  groundSubscribed : Bool
  pureSubscribed : Bool

/-- `cloudHandler`: the seven sequential steps of one scan.  Note that the
dense-check failure in `copyPointCloud` requests a node shutdown but does
not alter the control flow: all later steps, including `publishCloud`, still
run for the current scan. -/
def cloudHandler (orcs : Oracles) (inp : InputScan) (s : IPState) :
    IPState × Option ScanOutputs × Bool :=
  let cp := copyPointCloud inp s
  let s2 := findStartEndAngle orcs.at2 cp.1
  let s3 := projectPointCloud orcs.proj s2
  let s4 := groundRemoval orcs.groundGate orcs.groundSubscribed s3
  let s5 := cloudSegmentation orcs.seg orcs.pureSubscribed s4
  let outs := publishCloud s5
  (resetParameters s5, outs, cp.2)

/-- The state of the pipeline just after `groundRemoval`, starting one scan
from a freshly reset state (every scan starts from `resetParameters`
output: the constructor calls it once and `cloudHandler` re-calls it after
every scan). -/
def afterGround (orcs : Oracles) (inp : InputScan) (s : IPState) : IPState :=
  groundRemoval orcs.groundGate orcs.groundSubscribed
    (projectPointCloud orcs.proj
      (findStartEndAngle orcs.at2 (copyPointCloud inp (resetParameters s)).1))

/-- The state of the pipeline after `cloudSegmentation` of the same scan. -/
def afterSegmentation (orcs : Oracles) (inp : InputScan) (s : IPState) :
    IPState :=
  cloudSegmentation orcs.seg orcs.pureSubscribed (afterGround orcs inp s)

/-! ## Claim C9 — per-scan reset -/

/-- C9 counterexample.  A state in which a previous scan recorded a ground
point at position 0 of `segMsg.segmentedCloudGroundFlag` (any scan whose
first emitted cell is ground does exactly this). -/
def staleSegMsgState : IPState :=
  { allocatedState with
    segmentedCloudGroundFlag := updN allocatedState.segmentedCloudGroundFlag 0 true
    segmentedCloudColInd := updN allocatedState.segmentedCloudColInd 0 42
    segmentedCloudRange := updN allocatedState.segmentedCloudRange 0 7 }

/-- The invariant that C6 asserts of the `fullCloud` buffer: every entry is
either the `nanPoint` sentinel or was written by the projection at a cell
`(r, c)` of the grid, carries the encoded key of exactly that cell, and the
decoder recovers `(r, c)` from it. -/
def wellEncoded (full : Int → Pt) : Prop :=
  ∀ idx : Int, full idx = nanPoint ∨
    ∃ r c : Int, 0 ≤ r ∧ r < N_SCAN ∧ 0 ≤ c ∧ c < Horizon_SCAN ∧
      idx = c + r * Horizon_SCAN ∧
      (full idx).intensity = encodeIntensity r c ∧
      decodeRow (full idx).intensity = r ∧
      decodeCol (full idx).intensity = c

/-- A projection oracle instance for concrete witnesses (its values are
irrelevant to the witnessed statement). -/
def trivialProjOracle : ProjOracle :=
  ⟨fun _ _ _ => 0, fun _ _ => 0, fun _ _ _ => 0⟩

/-- The admission predicate of the emission loop for the segmented cloud,
read off `cloudSegmentation`: outer test `label > 0 ∨ ground = 1`, rejected
clusters (`SENTINEL_DROP`) never pass, and ground cells pass only at
columns `j % 5 = 0`, `j ≤ 5` or `j ≥ Horizon_SCAN - 5`. -/
def segKeep (label ground : Int → Int → Int) (i j : Int) : Bool :=
  decide ((0 < label i j ∨ ground i j = 1) ∧ label i j ≠ SENTINEL_DROP ∧
    ¬(ground i j = 1 ∧ (j % 5 ≠ 0 ∧ 5 < j ∧ j < Horizon_SCAN - 5)))

/-- The admission predicate of the emission loop for the outlier cloud:
a `SENTINEL_DROP` cell below the ground band (`i > groundScanInd`) at a
fifth column. -/
def outlierKeep (label ground : Int → Int → Int) (i j : Int) : Bool :=
  decide (label i j = SENTINEL_DROP ∧ groundScanInd < i ∧ j % 5 = 0)

/-- The cells of the range image in the row-major order the emission loop
visits them. -/
def rowMajorCells : List (Int × Int) :=
  (List.range N_SCAN.toNat).flatMap
    (fun (i : Nat) => (List.range Horizon_SCAN.toNat).map (fun (j : Nat) => ((i : Int), (j : Int))))

/-- The ground grid produced by an empty scan. -/
def emptyGround : Int → Int → Int :=
  fun a b =>
    if 0 ≤ a ∧ a < groundScanInd ∧ 0 ≤ b ∧ b < Horizon_SCAN then -1 else 0

/-- The label grid produced by an empty scan: `-1` on the whole grid
(every cell has `rangeMat = FLT_MAX`). -/
def emptyLabel : Int → Int → Int :=
  fun a b => if 0 ≤ a ∧ a < N_SCAN ∧ 0 ≤ b ∧ b < Horizon_SCAN then -1 else 0

/-- The zero-point input scan. -/
def emptyScanInput : InputScan := ⟨[], fun _ => 0, true⟩

/-- A segmentation oracle whose link predicate always accepts; it coincides
with the source's angular predicate whenever that predicate holds on every
consulted pair of ranges. -/
def trueSegOracle : SegOracle := ⟨fun _ _ => true, fun _ _ => true⟩

/-- A fixed oracle bundle for concrete instantiations. -/
def trivialOracles : Oracles :=
  ⟨atan2PiAxis, trivialProjOracle, fun _ _ => false, trueSegOracle, true, true⟩

/-- The emission accumulator at the start of the empty scan's emission
loop: `sizeOfSegCloud = 0`, the stale `segMsg` vectors, empty clouds. -/
def emptyEmit (s : IPState) : EmitState :=
  { sizeOfSegCloud := 0
    startRingIndex := s.startRingIndex
    endRingIndex := s.endRingIndex
    segmentedCloudGroundFlag := s.segmentedCloudGroundFlag
    segmentedCloudColInd := s.segmentedCloudColInd
    segmentedCloudRange := s.segmentedCloudRange
    segmentedCloud := []
    outlierCloud := [] }

/-- The BFS state `labelComponents(row, col)` reaches when its `while` loop
exits. -/
def bfsResult (orc : SegOracle) (range : Int → Int → ℚ) (row col : Int)
    (ls : LabelState) : BfsState :=
  bfsLoop orc range ls.labelCount bfsFuel (initBfs ls.labelMat row col)

/-- C2 counterexample cluster: five cells spanning beams 8, 9 and 10, with
the seed on beam 8. -/
def c2cells : List (Int × Int) := [(8, 10), (9, 10), (10, 10), (9, 11), (10, 11)]

/-- C2 counterexample label grid: the cluster cells are unlabelled, all
other cells are invalid. -/
def c2label : Int → Int → Int := fun i j => if (i, j) ∈ c2cells then 0 else -1

/-- C2 counterexample range grid: the cluster cells share range 5, all other
cells are empty.  (With equal ranges the source's link angle is
`π/2 − α/2 ≈ 89.99°` > 60°, so the always-true gate oracle agrees with the
real predicate on every consulted pair.) -/
def c2range : Int → Int → ℚ := fun i j => if (i, j) ∈ c2cells then 5 else FLT_MAX

/-- The per-cell invariant protecting a `-1` cell during one BFS: the cell
still holds `-1`, the queue window is well-formed, and no queue or
`allPushed` entry points at the cell. -/
def NegInv (i0 j0 : Int) (b : BfsState) : Prop :=
  b.labelMat i0 j0 = -1 ∧
  b.queueStartInd ≤ b.queueEndInd ∧
  b.queueSize = b.queueEndInd - b.queueStartInd ∧
  (∀ k, b.queueStartInd ≤ k → k < b.queueEndInd →
    ¬(b.queueIndX k = i0 ∧ b.queueIndY k = j0)) ∧
  (∀ k, k < b.allPushedIndSize →
    ¬(b.allPushedIndX k = i0 ∧ b.allPushedIndY k = j0))

/-- An in-range grid cell. -/
def InRange (i j : Int) : Prop :=
  0 ≤ i ∧ i < N_SCAN ∧ 0 ≤ j ∧ j < Horizon_SCAN

/-- The bookkeeping invariant of one BFS run, relative to the label grid
`lm0` at call time and the fresh id `lc`: the queue window is well formed,
every queue entry is a recorded cell that was unlabelled at call time,
every recorded cell was unlabelled at call time and lies in range, and
every cell now differs from `lm0` only by holding `lc` and being
recorded. -/
def PosInv (lm0 : Int → Int → Int) (lc : Int) (b : BfsState) : Prop :=
  b.queueStartInd ≤ b.queueEndInd ∧
  b.queueSize = b.queueEndInd - b.queueStartInd ∧
  (∀ k, b.queueStartInd ≤ k → k < b.queueEndInd →
    lm0 (b.queueIndX k) (b.queueIndY k) = 0 ∧
    ∃ m, m < b.allPushedIndSize ∧ b.allPushedIndX m = b.queueIndX k ∧
      b.allPushedIndY m = b.queueIndY k) ∧
  (∀ m, m < b.allPushedIndSize →
    lm0 (b.allPushedIndX m) (b.allPushedIndY m) = 0 ∧
    InRange (b.allPushedIndX m) (b.allPushedIndY m)) ∧
  (∀ i j : Int, b.labelMat i j = lm0 i j ∨
    (b.labelMat i j = lc ∧
      ∃ m, m < b.allPushedIndSize ∧ b.allPushedIndX m = i ∧
        b.allPushedIndY m = j))

/-- C9: the claim that at the start of each scan *every* grid and output
vector — *including* the per-point metadata arrays `ground_flag`,
`col_index` and `range` — holds its default value is false:
`resetParameters` (the only per-scan re-initialisation, run at the end of
each `cloudHandler` call) does not touch the `segMsg` arrays, so a stale
`true` in `segmentedCloudGroundFlag[0]` (default `false`), a stale column
index `42` (default `0`) and a stale range `7` (default `0`) all survive
into the next scan's start state. -/
theorem c9_counterexample :
    (resetParameters staleSegMsgState).segmentedCloudGroundFlag 0 = true ∧
    (resetParameters staleSegMsgState).segmentedCloudColInd 0 = 42 ∧
    (resetParameters staleSegMsgState).segmentedCloudRange 0 = 7 ∧
    allocatedState.segmentedCloudGroundFlag 0 = false ∧
    allocatedState.segmentedCloudColInd 0 = 0 ∧
    allocatedState.segmentedCloudRange 0 = 0 := by
  refine ⟨rfl, rfl, ?_, rfl, rfl, rfl⟩
  simp [resetParameters, staleSegMsgState, updN, allocatedState]

/-- C9 (amended): at the start of each scan the input cloud, the five output
clouds, the three grids, `labelCount` and the two full-cloud buffers are at
their defaults, but the scan-metadata record's vectors
(`startRingIndex`, `endRingIndex`, `segmentedCloudGroundFlag`,
`segmentedCloudColInd`, `segmentedCloudRange`) are allocated once and are
*not* reset between scans: entries the new scan does not overwrite retain
the previous scan's values. -/
theorem c9_reset_spec (s : IPState) :
    (resetParameters s).laserCloudIn = [] ∧
    (resetParameters s).groundCloud = [] ∧
    (resetParameters s).segmentedCloud = [] ∧
    (resetParameters s).segmentedCloudPure = [] ∧
    (resetParameters s).outlierCloud = [] ∧
    (resetParameters s).rangeMat = (fun _ _ => FLT_MAX) ∧
    (resetParameters s).groundMat = (fun _ _ => 0) ∧
    (resetParameters s).labelMat = (fun _ _ => 0) ∧
    (resetParameters s).labelCount = 1 ∧
    (resetParameters s).fullCloud = (fun _ => nanPoint) ∧
    (resetParameters s).fullInfoCloud = (fun _ => nanPoint) ∧
    (resetParameters s).segmentedCloudGroundFlag = s.segmentedCloudGroundFlag ∧
    (resetParameters s).segmentedCloudColInd = s.segmentedCloudColInd ∧
    (resetParameters s).segmentedCloudRange = s.segmentedCloudRange ∧
    (resetParameters s).startRingIndex = s.startRingIndex ∧
    (resetParameters s).endRingIndex = s.endRingIndex :=
  ⟨rfl, rfl, rfl, rfl, rfl, rfl, rfl, rfl, rfl, rfl, rfl, rfl, rfl, rfl, rfl,
   rfl⟩

/-! ## Claim C3 — orientation difference bracket -/

/-- Exactness of `atan2PiAxis` at the two axis points used below: the polar
angle (`atan2(y, x)`) of `(x, y) = (1, 0)` is `0 = 0·π` and of `(-1, 0)` is
`π = 1·π`. -/
theorem atan2PiAxis_agrees_with_arg :
    Complex.arg 1 = (atan2PiAxis 0 1 : ℝ) * Real.pi ∧
    Complex.arg (-1) = (atan2PiAxis 0 (-1) : ℝ) * Real.pi := by
  constructor
  · rw [Complex.arg_one]
    norm_num [atan2PiAxis]
  · rw [Complex.arg_neg_one]
    norm_num [atan2PiAxis]

/-- C3 counterexample.  The non-empty two-point scan whose first point lies
on the positive x-axis and whose last point lies on the negative x-axis:
`startOrientation = -atan2(0, 1) = 0` and
`endOrientation = -atan2(0, -1) + 2π = π`; the difference `π` is neither
`> 3π` nor `< π`, so the normalization leaves it alone and the recorded
`orientationDiff` is exactly `π` — *not* strictly greater than `π` as the
claim's open interval `(π, 3π]` requires.  (Angles are in units of π:
the recorded value `1` stands for `π`.) -/
theorem c3_counterexample :
    (findStartEndAngle atan2PiAxis
      { allocatedState with
        laserCloudIn := [⟨1, 0, 0, 0⟩, ⟨-1, 0, 0, 0⟩] }).orientationDiff = 1 ∧
    ¬ (1 <
      (findStartEndAngle atan2PiAxis
        { allocatedState with
          laserCloudIn := [⟨1, 0, 0, 0⟩, ⟨-1, 0, 0, 0⟩] }).orientationDiff) := by
  constructor <;>
    norm_num [findStartEndAngle, findStartEndAngleAux, atan2PiAxis,
      List.getLastD]

/-- C3 (amended): for every non-empty input scan, given that the two
`atan2` values lie in `atan2`'s range `(-π, π]`, the normalized
`orientationDiff` lies in the *closed* interval `[π, 3π]` (in units of π:
`[1, 3]`).  The lower end is attained (see the counterexample): the source
adjusts only when the difference is strictly below `π`, so a difference of
exactly `π` survives. -/
theorem c3_orientation_diff_bracket (at2 : ℚ → ℚ → ℚ) (s : IPState)
    (p0 : Pt) (rest : List Pt) (hcloud : s.laserCloudIn = p0 :: rest)
    (h0l : -1 < at2 p0.y p0.x) (h0u : at2 p0.y p0.x ≤ 1)
    (hll : -1 < at2 (rest.getLastD p0).y (rest.getLastD p0).x)
    (hlu : at2 (rest.getLastD p0).y (rest.getLastD p0).x ≤ 1) :
    1 ≤ (findStartEndAngle at2 s).orientationDiff ∧
    (findStartEndAngle at2 s).orientationDiff ≤ 3 := by
  rw [findStartEndAngle, hcloud]
  unfold findStartEndAngleAux
  dsimp only
  split_ifs with h1 h2 <;> constructor <;> linarith

/-- Witness for C3 (amended): a concrete one-point scan on the positive
x-axis; both `atan2` range hypotheses hold for `atan2PiAxis`, and the
amended theorem applies. -/
theorem c3_witness :
    1 ≤ (findStartEndAngle atan2PiAxis
      { allocatedState with laserCloudIn := [⟨0, 10, 0, 7⟩] }).orientationDiff ∧
    (findStartEndAngle atan2PiAxis
      { allocatedState with laserCloudIn := [⟨0, 10, 0, 7⟩] }).orientationDiff ≤ 3 :=
  c3_orientation_diff_bracket atan2PiAxis
    { allocatedState with laserCloudIn := [⟨0, 10, 0, 7⟩] }
    ⟨0, 10, 0, 7⟩ [] rfl (by norm_num [atan2PiAxis]) (by norm_num [atan2PiAxis])
    (by norm_num [atan2PiAxis, List.getLastD])
    (by norm_num [atan2PiAxis, List.getLastD])

/-! ## Claim C6 — encoded cell key round trip -/

/-- Generic preservation of a predicate through a left fold. -/
theorem foldl_preserves {σ α : Type} (P : σ → Prop) (f : σ → α → σ)
    (h : ∀ s a, P s → P (f s a)) :
    ∀ (l : List α) (s : σ), P s → P (l.foldl f s) := by
  intro l
  induction l with
  | nil => intro s hs; exact hs
  | cons a l ih => intro s hs; exact ih (f s a) (h s a hs)

/-- The encoded key `r + c/10000` decodes back to `(r, c)` for every cell of
the `N_SCAN × Horizon_SCAN` grid (`c/10000 < 1`, so the floor recovers `r`,
and the remaining fraction times `10000` is exactly `c`). -/
theorem encode_decode (r c : Int) (hr0 : 0 ≤ r) (hc0 : 0 ≤ c)
    (hcH : c < Horizon_SCAN) :
    decodeRow (encodeIntensity r c) = r ∧ decodeCol (encodeIntensity r c) = c := by
  have hfrac0 : (0 : ℚ) ≤ (c : ℚ) / 10000 := by positivity
  have hfrac1 : (c : ℚ) / 10000 < 1 := by
    rw [div_lt_one (by norm_num)]
    have : (c : ℚ) < 1800 := by exact_mod_cast lt_of_lt_of_le hcH (by norm_num [Horizon_SCAN])
    linarith
  have hfloor : ⌊encodeIntensity r c⌋ = r := by
    unfold encodeIntensity
    rw [Int.floor_int_add]
    have : ⌊(c : ℚ) / 10000⌋ = 0 := by
      rw [Int.floor_eq_zero_iff]
      exact ⟨hfrac0, hfrac1⟩
    omega
  refine ⟨hfloor, ?_⟩
  unfold decodeCol
  rw [hfloor]
  have hsub : (encodeIntensity r c - (r : ℚ)) * 10000 = (c : ℚ) := by
    unfold encodeIntensity
    field_simp
    ring
  rw [hsub]
  unfold roundC
  rw [if_pos (by exact_mod_cast hc0)]
  have hfl : ⌊(c : ℚ) + 1 / 2⌋ = ⌊(1 : ℚ) / 2⌋ + c := by
    rw [add_comm, Int.floor_add_int]
  rw [hfl]
  have hhalf : ⌊(1 : ℚ) / 2⌋ = 0 := by
    rw [Int.floor_eq_zero_iff]
    constructor <;> norm_num
  omega

/-- Writing the point for in-range cell `(r, c)` at flat index
`c + r * Horizon_SCAN`, with intensity `encodeIntensity r c`, preserves
`wellEncoded`. -/
theorem write_wellEncoded (full : Int → Pt) (h : wellEncoded full)
    (r c : Int) (hr0 : 0 ≤ r) (hrN : r < N_SCAN) (hc0 : 0 ≤ c)
    (hcH : c < Horizon_SCAN) (p : Pt) :
    wellEncoded
      (upd1 full (c + r * Horizon_SCAN) { p with intensity := encodeIntensity r c }) := by
  intro idx
  by_cases hidx : idx = c + r * Horizon_SCAN
  · right
    refine ⟨r, c, hr0, hrN, hc0, hcH, hidx, ?_⟩
    have hlook :
        (upd1 full (c + r * Horizon_SCAN)
          { p with intensity := encodeIntensity r c }) idx =
          { p with intensity := encodeIntensity r c } := by
      unfold upd1
      rw [if_pos hidx]
    rw [hlook]
    exact ⟨rfl, (encode_decode r c hr0 hc0 hcH).1, (encode_decode r c hr0 hc0 hcH).2⟩
  · have hlook :
        (upd1 full (c + r * Horizon_SCAN)
          { p with intensity := encodeIntensity r c }) idx = full idx := by
      unfold upd1
      rw [if_neg hidx]
    rw [hlook]
    exact h idx

/-- One projection step preserves `wellEncoded`: every write lands at the
flat index `columnIdn + rowIdn * Horizon_SCAN` of a guarded in-range cell
and stores the encoded key of that cell in the intensity. -/
theorem projectOnePoint_wellEncoded (orc : ProjOracle) (ringOf : Nat → Int)
    (i : Nat) (p : Pt) (s : IPState) (h : wellEncoded s.fullCloud) :
    wellEncoded (projectOnePoint orc ringOf i p s).fullCloud := by
  unfold projectOnePoint
  dsimp only
  simp only [useCloudRing, eq_self_iff_true, if_true]
  split
  · exact h
  · rename_i hrow
    push_neg at hrow
    split
    · split
      · exact h
      · rename_i hcol
        split
        · exact h
        · push_neg at hcol
          exact write_wellEncoded s.fullCloud h _ _ hrow.1 hrow.2 hcol.1 hcol.2 p
    · split
      · exact h
      · rename_i hcol
        split
        · exact h
        · push_neg at hcol
          exact write_wellEncoded s.fullCloud h _ _ hrow.1 hrow.2 hcol.1 hcol.2 p

/-- C6: after `projectPointCloud` runs on a freshly reset buffer, every
`fullCloud` entry is either the sentinel or carries the encoded key
`r + c/10000` of the cell `(r, c)` it was written to, and decoding
`r' = ⌊intensity⌋`, `c' = round((intensity - r')·10000)` recovers exactly
that cell, for every `r ∈ [0, N_SCAN)`, `c ∈ [0, Horizon_SCAN)`. -/
theorem c6_fullCloud_roundTrip (orc : ProjOracle) (s : IPState)
    (hinit : ∀ idx, s.fullCloud idx = nanPoint) :
    wellEncoded (projectPointCloud orc s).fullCloud := by
  unfold projectPointCloud
  exact foldl_preserves (fun st => wellEncoded st.fullCloud)
    (fun st pi => projectOnePoint orc s.laserCloudInRing pi.1 pi.2 st)
    (fun st pi hst => projectOnePoint_wellEncoded orc s.laserCloudInRing
      pi.1 pi.2 st hst)
    s.laserCloudIn.enum s (fun idx => Or.inl (hinit idx))

/-- Witness for C6 at a concrete input: the freshly allocated state
(all-sentinel buffer) with an empty cloud. -/
theorem c6_witness :
    wellEncoded (projectPointCloud trivialProjOracle allocatedState).fullCloud :=
  c6_fullCloud_roundTrip trivialProjOracle allocatedState (fun _ => rfl)


/-! ## Claim C7 — emission filter -/

/-- `SENTINEL_DROP` is positive, so a sentinel-labelled cell always passes
the outer emission test. -/
theorem sentinel_pos : (0 : Int) < SENTINEL_DROP := by norm_num [SENTINEL_DROP]

/-- One emission step appends to the segmented cloud exactly when `segKeep`
holds and to the outlier cloud exactly when `outlierKeep` holds. -/
theorem emitCell_clouds (label ground : Int → Int → Int)
    (range : Int → Int → ℚ) (full : Int → Pt) (i : Int) (e : EmitState)
    (j : Int) :
    (emitCell label ground range full i e j).segmentedCloud =
      e.segmentedCloud ++
        (if segKeep label ground i j then [full (j + i * Horizon_SCAN)] else []) ∧
    (emitCell label ground range full i e j).outlierCloud =
      e.outlierCloud ++
        (if outlierKeep label ground i j then [full (j + i * Horizon_SCAN)] else []) := by
  by_cases h1 : label i j > 0 ∨ ground i j = 1
  · by_cases h2 : label i j = SENTINEL_DROP
    · by_cases h3 : groundScanInd < i ∧ j % 5 = 0
      · -- sentinel cell, emitted to the outlier cloud
        have hs : segKeep label ground i j = false := by
          simp only [segKeep, decide_eq_false_iff_not]
          exact fun hc => hc.2.1 h2
        have ho : outlierKeep label ground i j = true := by
          simp only [outlierKeep, decide_eq_true_eq]
          exact ⟨h2, h3.1, h3.2⟩
        unfold emitCell
        rw [if_pos h1, if_pos h2, if_pos h3, hs, ho]
        simp
      · -- sentinel cell, skipped entirely
        have hs : segKeep label ground i j = false := by
          simp only [segKeep, decide_eq_false_iff_not]
          exact fun hc => hc.2.1 h2
        have ho : outlierKeep label ground i j = false := by
          simp only [outlierKeep, decide_eq_false_iff_not]
          exact fun hc => h3 hc.2
        unfold emitCell
        rw [if_pos h1, if_pos h2, if_neg h3, hs, ho]
        simp
    · by_cases h4 : ground i j = 1 ∧ (j % 5 ≠ 0 ∧ 5 < j ∧ j < Horizon_SCAN - 5)
      · -- decimated ground cell, skipped
        have hs : segKeep label ground i j = false := by
          simp only [segKeep, decide_eq_false_iff_not]
          exact fun hc => hc.2.2 h4
        have ho : outlierKeep label ground i j = false := by
          simp only [outlierKeep, decide_eq_false_iff_not]
          exact fun hc => h2 hc.1
        unfold emitCell
        rw [if_pos h1, if_neg h2, if_pos h4, hs, ho]
        simp
      · -- emitted to the segmented cloud
        have hs : segKeep label ground i j = true := by
          simp only [segKeep, decide_eq_true_eq]
          exact ⟨h1, h2, h4⟩
        have ho : outlierKeep label ground i j = false := by
          simp only [outlierKeep, decide_eq_false_iff_not]
          exact fun hc => h2 hc.1
        unfold emitCell
        rw [if_pos h1, if_neg h2, if_neg h4, hs, ho]
        simp
  · -- outer test fails: nothing emitted
    have hs : segKeep label ground i j = false := by
      simp only [segKeep, decide_eq_false_iff_not]
      exact fun hc => h1 hc.1
    have ho : outlierKeep label ground i j = false := by
      simp only [outlierKeep, decide_eq_false_iff_not]
      exact fun hc => h1 (Or.inl (hc.1 ▸ sentinel_pos))
    unfold emitCell
    rw [if_neg h1, hs, ho]
    simp

/-- Fold of `emitCell` over the column indices of one row: the two clouds
grow by the filtered, mapped column list. -/
theorem emitCells_clouds (label ground : Int → Int → Int)
    (range : Int → Int → ℚ) (full : Int → Pt) (i : Int) (js : List Nat) :
    ∀ e : EmitState,
    (js.foldl (fun e (j : Nat) => emitCell label ground range full i e (j : Int)) e).segmentedCloud =
      e.segmentedCloud ++
        (js.filter (fun (j : Nat) => segKeep label ground i (j : Int))).map
          (fun (j : Nat) => full ((j : Int) + i * Horizon_SCAN)) ∧
    (js.foldl (fun e (j : Nat) => emitCell label ground range full i e (j : Int)) e).outlierCloud =
      e.outlierCloud ++
        (js.filter (fun (j : Nat) => outlierKeep label ground i (j : Int))).map
          (fun (j : Nat) => full ((j : Int) + i * Horizon_SCAN)) := by
  induction js with
  | nil => intro e; simp
  | cons j js ih =>
    intro e
    rw [List.foldl_cons]
    rcases emitCell_clouds label ground range full i e (j : Int) with ⟨hs, ho⟩
    rcases ih (emitCell label ground range full i e (j : Int)) with ⟨ihs, iho⟩
    constructor
    · rw [ihs, hs, List.filter_cons]
      by_cases hk : segKeep label ground i (j : Int) <;> simp [hk]
    · rw [iho, ho, List.filter_cons]
      by_cases hk : outlierKeep label ground i (j : Int) <;> simp [hk]

/-- One emission row: the ring-index writes do not touch the clouds, so the
clouds grow by row `i`'s filtered columns. -/
theorem emitRow_clouds (label ground : Int → Int → Int)
    (range : Int → Int → ℚ) (full : Int → Pt) (e : EmitState) (i : Int) :
    (emitRow label ground range full e i).segmentedCloud =
      e.segmentedCloud ++
        ((List.range Horizon_SCAN.toNat).filter
          (fun (j : Nat) => segKeep label ground i (j : Int))).map
            (fun (j : Nat) => full ((j : Int) + i * Horizon_SCAN)) ∧
    (emitRow label ground range full e i).outlierCloud =
      e.outlierCloud ++
        ((List.range Horizon_SCAN.toNat).filter
          (fun (j : Nat) => outlierKeep label ground i (j : Int))).map
            (fun (j : Nat) => full ((j : Int) + i * Horizon_SCAN)) := by
  unfold emitRow
  dsimp only
  exact emitCells_clouds label ground range full i _ _

/-- C7: the emission loop produces, appended to whatever the clouds held,
exactly the row-major filter of the grid by `segKeep` for the segmented
cloud and by `outlierKeep` for the outlier cloud — i.e. a cell with
`label > 0` or `ground = 1` joins the segmented cloud unless it is a
`SENTINEL_DROP` cell (those go to the outlier cloud exactly when
`i > groundScanInd` and `j % 5 = 0`) or a decimated ground cell (ground
cells join exactly when `j % 5 = 0` or `j ≤ 5` or `j ≥ Horizon_SCAN - 5`),
in row-major order. -/
theorem c7_emission_filter (label ground : Int → Int → Int)
    (range : Int → Int → ℚ) (full : Int → Pt) (e : EmitState) :
    (emitAll label ground range full e).segmentedCloud =
      e.segmentedCloud ++
        (rowMajorCells.filter (fun p => segKeep label ground p.1 p.2)).map
          (fun p => full (p.2 + p.1 * Horizon_SCAN)) ∧
    (emitAll label ground range full e).outlierCloud =
      e.outlierCloud ++
        (rowMajorCells.filter (fun p => outlierKeep label ground p.1 p.2)).map
          (fun p => full (p.2 + p.1 * Horizon_SCAN)) := by
  have main : ∀ (is : List Nat) (e : EmitState),
      (is.foldl (fun e (i : Nat) => emitRow label ground range full e (i : Int)) e).segmentedCloud =
        e.segmentedCloud ++
          is.flatMap (fun (i : Nat) =>
            ((List.range Horizon_SCAN.toNat).filter
              (fun (j : Nat) => segKeep label ground (i : Int) (j : Int))).map
                (fun (j : Nat) => full ((j : Int) + (i : Int) * Horizon_SCAN))) ∧
      (is.foldl (fun e (i : Nat) => emitRow label ground range full e (i : Int)) e).outlierCloud =
        e.outlierCloud ++
          is.flatMap (fun (i : Nat) =>
            ((List.range Horizon_SCAN.toNat).filter
              (fun (j : Nat) => outlierKeep label ground (i : Int) (j : Int))).map
                (fun (j : Nat) => full ((j : Int) + (i : Int) * Horizon_SCAN))) := by
    intro is
    induction is with
    | nil => intro e; simp
    | cons i is ih =>
      intro e
      rw [List.foldl_cons]
      rcases emitRow_clouds label ground range full e (i : Int) with ⟨hs, ho⟩
      rcases ih (emitRow label ground range full e (i : Int)) with ⟨ihs, iho⟩
      constructor
      · rw [ihs, hs, List.flatMap_cons, List.append_assoc]
      · rw [iho, ho, List.flatMap_cons, List.append_assoc]
  rcases main (List.range N_SCAN.toNat) e with ⟨hs, ho⟩
  unfold emitAll
  rw [hs, ho]
  unfold rowMajorCells
  constructor <;>
  · refine congrArg (_ ++ ·) ?_
    rw [List.filter_flatMap, List.map_flatMap]
    refine List.flatMap_congr (fun i _ => ?_)
    rw [List.filter_map, List.map_map]
    rfl

/-! ## Claim C1 — empty scan

A chain of lemmas computing every pipeline stage on a zero-point input, from
an arbitrary pre-scan state. -/

/-- A fold whose body fixes the state is the identity. -/
theorem foldl_fixed {σ α : Type} (f : σ → α → σ) (l : List α) (s : σ)
    (h : ∀ a ∈ l, f s a = s) : l.foldl f s = s := by
  induction l with
  | nil => rfl
  | cons a l ih =>
    rw [List.foldl_cons, h a (List.mem_cons_self a l)]
    exact ih (fun b hb => h b (List.mem_cons_of_mem a hb))

/-- `findStartEndAngle` is the identity on an empty cloud (the source would
read out of bounds there; the model leaves the state unchanged). -/
theorem findStartEndAngle_nil (at2 : ℚ → ℚ → ℚ) (s : IPState)
    (h : s.laserCloudIn = []) : findStartEndAngle at2 s = s := by
  unfold findStartEndAngle
  rw [h]

/-- `projectPointCloud` is the identity on an empty cloud. -/
theorem projectPointCloud_nil (orc : ProjOracle) (s : IPState)
    (h : s.laserCloudIn = []) : projectPointCloud orc s = s := by
  unfold projectPointCloud
  rw [h]
  rfl

/-- On an all-sentinel `fullCloud`, one `groundOnePair` iteration always
takes the invalid branch. -/
theorem groundOnePair_sentinel (gate : GroundGate) (full : Int → Pt)
    (hfull : ∀ idx, (full idx).intensity = -1) (g : Int → Int → Int)
    (i j : Int) : groundOnePair gate full g i j = upd2 g i j (-1) := by
  unfold groundOnePair
  rw [if_pos (Or.inl (hfull _))]

/-- The inner `groundRemoval` loop on an all-sentinel cloud marks rows
`0 .. n-1` of column `j` invalid. -/
theorem groundPass1_inner_sentinel (gate : GroundGate) (full : Int → Pt)
    (hfull : ∀ idx, (full idx).intensity = -1) (j : Int) :
    ∀ (n : Nat) (g : Int → Int → Int),
    ((List.range n).foldl
      (fun g (i : Nat) => groundOnePair gate full g (i : Int) j) g) =
      fun a b => if 0 ≤ a ∧ a < (n : Int) ∧ b = j then -1 else g a b := by
  intro n
  induction n with
  | zero =>
    intro g
    funext a b
    simp only [List.range_zero, List.foldl_nil]
    rw [if_neg (by omega)]
  | succ n ih =>
    intro g
    rw [List.range_succ, List.foldl_append, List.foldl_cons, List.foldl_nil,
      ih g, groundOnePair_sentinel gate full hfull]
    funext a b
    unfold upd2
    dsimp only
    by_cases hab : a = (n : Int) ∧ b = j
    · rw [if_pos hab, if_pos (by omega)]
    · rw [if_neg hab]
      by_cases hin : 0 ≤ a ∧ a < (n : Int) ∧ b = j
      · rw [if_pos hin, if_pos (by omega)]
      · rw [if_neg hin, if_neg (by omega)]

/-- The first `groundRemoval` pass on an all-sentinel cloud: every cell of
the bottom `groundScanInd` rows is marked `-1`, everything else keeps its
value. -/
theorem groundPass1_sentinel (gate : GroundGate) (full : Int → Pt)
    (hfull : ∀ idx, (full idx).intensity = -1) :
    ∀ (m : Nat) (g : Int → Int → Int),
    ((List.range m).foldl
      (fun g (j : Nat) =>
        (List.range groundScanInd.toNat).foldl
          (fun g (i : Nat) => groundOnePair gate full g (i : Int) (j : Int)) g)
      g) =
      fun a b =>
        if 0 ≤ a ∧ a < groundScanInd ∧ 0 ≤ b ∧ b < (m : Int) then -1
        else g a b := by
  intro m
  induction m with
  | zero =>
    intro g
    funext a b
    simp only [List.range_zero, List.foldl_nil]
    rw [if_neg (by omega)]
  | succ m ih =>
    intro g
    rw [List.range_succ, List.foldl_append, List.foldl_cons, List.foldl_nil,
      ih g, groundPass1_inner_sentinel gate full hfull]
    funext a b
    dsimp only
    have hG : ((groundScanInd.toNat : Nat) : Int) = groundScanInd := by
      norm_num [groundScanInd]
    rw [hG]
    by_cases h1 : 0 ≤ a ∧ a < groundScanInd ∧ b = (m : Int)
    · rw [if_pos h1, if_pos (by omega)]
    · rw [if_neg h1]
      by_cases h2 : 0 ≤ a ∧ a < groundScanInd ∧ 0 ≤ b ∧ b < (m : Int)
      · rw [if_pos h2, if_pos (by omega)]
      · rw [if_neg h2, if_neg (by omega)]

/-- `groundRemoval` on an empty scan (reset grids, all-sentinel cloud). -/
theorem groundRemoval_empty (gate : GroundGate) (gsub : Bool) (s : IPState)
    (hfull : ∀ idx, (s.fullCloud idx).intensity = -1)
    (hground : s.groundMat = fun _ _ => 0)
    (hrange : s.rangeMat = fun _ _ => FLT_MAX)
    (hlabel : s.labelMat = fun _ _ => 0) :
    groundRemoval gate gsub s =
      { s with groundMat := emptyGround, labelMat := emptyLabel } := by
  unfold groundRemoval groundPass1
  have hg : (List.range Horizon_SCAN.toNat).foldl
      (fun g (j : Nat) =>
        (List.range groundScanInd.toNat).foldl
          (fun g (i : Nat) => groundOnePair gate s.fullCloud g (i : Int) (j : Int)) g)
      s.groundMat = emptyGround := by
    rw [groundPass1_sentinel gate s.fullCloud hfull, hground]
    funext a b
    unfold emptyGround
    dsimp only
    have hH : ((Horizon_SCAN.toNat : Nat) : Int) = Horizon_SCAN := by
      norm_num [Horizon_SCAN]
    rw [hH]
  rw [hg]
  have hl : markGroundAndInvalid emptyGround s.rangeMat s.labelMat = emptyLabel := by
    rw [hrange, hlabel]
    funext a b
    unfold markGroundAndInvalid emptyLabel
    dsimp only
    by_cases hin : 0 ≤ a ∧ a < N_SCAN ∧ 0 ≤ b ∧ b < Horizon_SCAN
    · rw [if_pos ⟨hin.1, hin.2.1, hin.2.2.1, hin.2.2.2, Or.inr rfl⟩, if_pos hin]
    · rw [if_neg (fun hc => hin ⟨hc.1, hc.2.1, hc.2.2.1, hc.2.2.2.1⟩),
        if_neg hin]
  dsimp only
  rw [hl]
  have hext : extractGroundCloud emptyGround s.fullCloud = [] := by
    unfold extractGroundCloud
    refine foldl_fixed _ _ _ (fun i _ => ?_)
    refine foldl_fixed _ _ _ (fun j _ => ?_)
    have hne : emptyGround (i : Int) (j : Int) ≠ 1 := by
      unfold emptyGround
      split_ifs <;> decide
    rw [if_neg hne]
  rw [hext]
  by_cases hb : gsub = true
  · rw [if_pos hb, List.append_nil]
  · rw [if_neg hb]

/-- `segmentAll` never fires on a grid without `0` labels. -/
theorem segmentAll_skip (orc : SegOracle) (range : Int → Int → ℚ)
    (ls : LabelState)
    (h : ∀ (i j : Nat), i < N_SCAN.toNat → j < Horizon_SCAN.toNat →
      ls.labelMat (i : Int) (j : Int) ≠ 0) :
    segmentAll orc range ls = ls := by
  unfold segmentAll
  refine foldl_fixed _ _ _ (fun i hi => ?_)
  refine foldl_fixed _ _ _ (fun j hj => ?_)
  rw [if_neg (h i j (List.mem_range.mp hi) (List.mem_range.mp hj))]

/-- A non-qualifying cell leaves the emission state unchanged. -/
theorem emitCell_noop (label ground : Int → Int → Int)
    (range : Int → Int → ℚ) (full : Int → Pt) (i : Int) (e : EmitState)
    (j : Int) (h : ¬(label i j > 0 ∨ ground i j = 1)) :
    emitCell label ground range full i e j = e := by
  unfold emitCell
  rw [if_neg h]

/-- One emission row on a grid with no qualifying cells: only the two
ring-index writes happen. -/
theorem emitRow_noop (label ground : Int → Int → Int)
    (range : Int → Int → ℚ) (full : Int → Pt) (e : EmitState) (i : Int)
    (h : ∀ j : Int, ¬(label i j > 0 ∨ ground i j = 1)) :
    emitRow label ground range full e i =
      { e with
        startRingIndex := upd1 e.startRingIndex i (e.sizeOfSegCloud - 1 + 5)
        endRingIndex := upd1 e.endRingIndex i (e.sizeOfSegCloud - 1 - 5) } := by
  unfold emitRow
  dsimp only
  rw [foldl_fixed
    (fun e (j : Nat) => emitCell label ground range full i e (j : Int))
    (List.range Horizon_SCAN.toNat) _
    (fun j _ => emitCell_noop label ground range full i _ (j : Int) (h _))]

/-- The emission loop on a grid with no qualifying cells: `sizeOfSegCloud`,
the clouds and the metadata arrays stay put, and every visited row records
`startRingIndex = size - 1 + 5`, `endRingIndex = size - 1 - 5`. -/
theorem emitAll_noop (label ground : Int → Int → Int)
    (range : Int → Int → ℚ) (full : Int → Pt)
    (h : ∀ i j : Int, ¬(label i j > 0 ∨ ground i j = 1)) :
    ∀ (m : Nat) (e : EmitState),
    ((List.range m).foldl
      (fun e (i : Nat) => emitRow label ground range full e (i : Int)) e).sizeOfSegCloud =
        e.sizeOfSegCloud ∧
    ((List.range m).foldl
      (fun e (i : Nat) => emitRow label ground range full e (i : Int)) e).segmentedCloud =
        e.segmentedCloud ∧
    ((List.range m).foldl
      (fun e (i : Nat) => emitRow label ground range full e (i : Int)) e).outlierCloud =
        e.outlierCloud ∧
    ((List.range m).foldl
      (fun e (i : Nat) => emitRow label ground range full e (i : Int)) e).segmentedCloudGroundFlag =
        e.segmentedCloudGroundFlag ∧
    ((List.range m).foldl
      (fun e (i : Nat) => emitRow label ground range full e (i : Int)) e).segmentedCloudColInd =
        e.segmentedCloudColInd ∧
    ((List.range m).foldl
      (fun e (i : Nat) => emitRow label ground range full e (i : Int)) e).segmentedCloudRange =
        e.segmentedCloudRange ∧
    ((List.range m).foldl
      (fun e (i : Nat) => emitRow label ground range full e (i : Int)) e).startRingIndex =
        (fun r => if 0 ≤ r ∧ r < (m : Int) then e.sizeOfSegCloud - 1 + 5
          else e.startRingIndex r) ∧
    ((List.range m).foldl
      (fun e (i : Nat) => emitRow label ground range full e (i : Int)) e).endRingIndex =
        (fun r => if 0 ≤ r ∧ r < (m : Int) then e.sizeOfSegCloud - 1 - 5
          else e.endRingIndex r) := by
  intro m
  induction m with
  | zero =>
    intro e
    rw [List.range_zero]
    refine ⟨rfl, rfl, rfl, rfl, rfl, rfl, ?_, ?_⟩
    · funext r
      rw [if_neg (by omega)]
      rfl
    · funext r
      rw [if_neg (by omega)]
      rfl
  | succ m ih =>
    intro e
    rw [List.range_succ, List.foldl_append, List.foldl_cons, List.foldl_nil]
    rcases ih e with ⟨h1, h2, h3, h4, h5, h6, h7, h8⟩
    rw [emitRow_noop label ground range full _ _ (h _)]
    dsimp only
    rw [h1, h2, h3, h4, h5, h6, h7, h8]
    refine ⟨rfl, rfl, rfl, rfl, rfl, rfl, ?_, ?_⟩
    · funext r
      unfold upd1
      dsimp only
      by_cases hr : r = (m : Int)
      · rw [if_pos hr, if_pos (by omega)]
      · rw [if_neg hr]
        by_cases hr2 : 0 ≤ r ∧ r < (m : Int)
        · rw [if_pos hr2, if_pos (by omega)]
        · rw [if_neg hr2, if_neg (by omega)]
    · funext r
      unfold upd1
      dsimp only
      by_cases hr : r = (m : Int)
      · rw [if_pos hr, if_pos (by omega)]
      · rw [if_neg hr]
        by_cases hr2 : 0 ≤ r ∧ r < (m : Int)
        · rw [if_pos hr2, if_pos (by omega)]
        · rw [if_neg hr2, if_neg (by omega)]

/-- `pureCloudOf` is empty when no in-range cell has a positive
non-sentinel label. -/
theorem pureCloudOf_empty (label : Int → Int → Int) (full : Int → Pt)
    (h : ∀ (i j : Nat), i < N_SCAN.toNat → j < Horizon_SCAN.toNat →
      ¬(label (i : Int) (j : Int) > 0 ∧ label (i : Int) (j : Int) ≠ SENTINEL_DROP)) :
    pureCloudOf label full = [] := by
  unfold pureCloudOf
  refine foldl_fixed _ _ _ (fun i hi => ?_)
  refine foldl_fixed _ _ _ (fun j hj => ?_)
  rw [if_neg (h i j (List.mem_range.mp hi) (List.mem_range.mp hj))]

/-- The record-level unfolding of `cloudSegmentation`: each output field in
terms of the labelling phase, the emission loop and the pure-cloud
extraction. -/
theorem cloudSegmentation_eq (orc : SegOracle) (b : Bool) (s : IPState) :
    cloudSegmentation orc b s =
      { s with
        labelMat :=
          (segmentAll orc s.rangeMat ⟨s.labelMat, s.labelCount⟩).labelMat
        labelCount :=
          (segmentAll orc s.rangeMat ⟨s.labelMat, s.labelCount⟩).labelCount
        startRingIndex :=
          (emitAll (segmentAll orc s.rangeMat ⟨s.labelMat, s.labelCount⟩).labelMat
            s.groundMat s.rangeMat s.fullCloud (emitInit s)).startRingIndex
        endRingIndex :=
          (emitAll (segmentAll orc s.rangeMat ⟨s.labelMat, s.labelCount⟩).labelMat
            s.groundMat s.rangeMat s.fullCloud (emitInit s)).endRingIndex
        segmentedCloudGroundFlag :=
          (emitAll (segmentAll orc s.rangeMat ⟨s.labelMat, s.labelCount⟩).labelMat
            s.groundMat s.rangeMat s.fullCloud (emitInit s)).segmentedCloudGroundFlag
        segmentedCloudColInd :=
          (emitAll (segmentAll orc s.rangeMat ⟨s.labelMat, s.labelCount⟩).labelMat
            s.groundMat s.rangeMat s.fullCloud (emitInit s)).segmentedCloudColInd
        segmentedCloudRange :=
          (emitAll (segmentAll orc s.rangeMat ⟨s.labelMat, s.labelCount⟩).labelMat
            s.groundMat s.rangeMat s.fullCloud (emitInit s)).segmentedCloudRange
        segmentedCloud :=
          (emitAll (segmentAll orc s.rangeMat ⟨s.labelMat, s.labelCount⟩).labelMat
            s.groundMat s.rangeMat s.fullCloud (emitInit s)).segmentedCloud
        outlierCloud :=
          (emitAll (segmentAll orc s.rangeMat ⟨s.labelMat, s.labelCount⟩).labelMat
            s.groundMat s.rangeMat s.fullCloud (emitInit s)).outlierCloud
        segmentedCloudPure :=
          if b then
            s.segmentedCloudPure ++
              pureCloudOf
                (segmentAll orc s.rangeMat ⟨s.labelMat, s.labelCount⟩).labelMat
                s.fullCloud
          else s.segmentedCloudPure } := rfl

/-- `afterGround` on a zero-point scan: only the input cloud, ring channel,
ground grid and label grid differ from the freshly reset state. -/
theorem afterGround_empty (orcs : Oracles) (inp : InputScan) (s : IPState)
    (hpts : inp.points = []) :
    afterGround orcs inp s =
      { resetParameters s with
        laserCloudIn := []
        laserCloudInRing := inp.rings
        groundMat := emptyGround
        labelMat := emptyLabel } := by
  unfold afterGround copyPointCloud
  dsimp only
  rw [hpts]
  rw [findStartEndAngle_nil _ _ rfl, projectPointCloud_nil _ _ rfl]
  rw [groundRemoval_empty _ _ _ (fun _ => rfl) (by rw [resetParameters])
    (by rw [resetParameters]) (by rw [resetParameters])]

/-- `segmentAll` on the empty-scan grids: no cell fires. -/
theorem segmentAll_empty (orc : SegOracle) :
    (segmentAll orc (fun _ _ => FLT_MAX) ⟨emptyLabel, 1⟩ : LabelState) =
      ⟨emptyLabel, 1⟩ := by
  refine segmentAll_skip _ _ _ (fun i j hi hj => ?_)
  dsimp only
  unfold emptyLabel
  rw [if_pos ?_]
  · decide
  · refine ⟨by omega, ?_, by omega, ?_⟩
    · have : (N_SCAN.toNat : Int) = N_SCAN := by norm_num [N_SCAN]
      omega
    · have : (Horizon_SCAN.toNat : Int) = Horizon_SCAN := by
        norm_num [Horizon_SCAN]
      omega

/-- No cell of the empty-scan grids passes the emission admission test. -/
theorem emptyGrids_noemit :
    ∀ i j : Int, ¬(emptyLabel i j > 0 ∨ emptyGround i j = 1) := by
  intro i j
  rintro (hpos | hgr)
  · unfold emptyLabel at hpos
    split_ifs at hpos <;> omega
  · unfold emptyGround at hgr
    split_ifs at hgr <;> omega

/-- Cast compatibility for the row count. -/
theorem natCast_N_SCAN : ((N_SCAN.toNat : Nat) : Int) = N_SCAN := by
  norm_num [N_SCAN]

/-- Empty scan, field 1: the range grid keeps its `FLT_MAX` default. -/
theorem es_rangeMat (orcs : Oracles) (inp : InputScan) (s : IPState)
    (hpts : inp.points = []) :
    (afterSegmentation orcs inp s).rangeMat = (fun _ _ => FLT_MAX) := by
  unfold afterSegmentation
  rw [afterGround_empty orcs inp s hpts, cloudSegmentation_eq]
  rfl

/-- Empty scan, field 2: the ground grid is `-1` on the bottom rows. -/
theorem es_groundMat (orcs : Oracles) (inp : InputScan) (s : IPState)
    (hpts : inp.points = []) :
    (afterSegmentation orcs inp s).groundMat = emptyGround := by
  unfold afterSegmentation
  rw [afterGround_empty orcs inp s hpts, cloudSegmentation_eq]

/-- Empty scan, field 3: the label grid is `-1` everywhere. -/
theorem es_labelMat (orcs : Oracles) (inp : InputScan) (s : IPState)
    (hpts : inp.points = []) :
    (afterSegmentation orcs inp s).labelMat = emptyLabel := by
  have hr : ({ resetParameters s with
        laserCloudIn := ([] : List Pt)
        laserCloudInRing := inp.rings
        groundMat := emptyGround
        labelMat := emptyLabel } : IPState).rangeMat = (fun _ _ => FLT_MAX) := rfl
  have hl : ({ resetParameters s with
        laserCloudIn := ([] : List Pt)
        laserCloudInRing := inp.rings
        groundMat := emptyGround
        labelMat := emptyLabel } : IPState).labelMat = emptyLabel := rfl
  have hc : ({ resetParameters s with
        laserCloudIn := ([] : List Pt)
        laserCloudInRing := inp.rings
        groundMat := emptyGround
        labelMat := emptyLabel } : IPState).labelCount = 1 := rfl
  have hseg : segmentAll orcs.seg ({ resetParameters s with
        laserCloudIn := ([] : List Pt)
        laserCloudInRing := inp.rings
        groundMat := emptyGround
        labelMat := emptyLabel } : IPState).rangeMat
      (⟨({ resetParameters s with
        laserCloudIn := ([] : List Pt)
        laserCloudInRing := inp.rings
        groundMat := emptyGround
        labelMat := emptyLabel } : IPState).labelMat, ({ resetParameters s with
        laserCloudIn := ([] : List Pt)
        laserCloudInRing := inp.rings
        groundMat := emptyGround
        labelMat := emptyLabel } : IPState).labelCount⟩ : LabelState) =
      (⟨emptyLabel, 1⟩ : LabelState) := by
    rw [hr, hl, hc]
    exact segmentAll_empty orcs.seg
  have hlm : ((⟨emptyLabel, 1⟩ : LabelState)).labelMat = emptyLabel := rfl
  have hg : ({ resetParameters s with
        laserCloudIn := ([] : List Pt)
        laserCloudInRing := inp.rings
        groundMat := emptyGround
        labelMat := emptyLabel } : IPState).groundMat = emptyGround := rfl
  have hf : ({ resetParameters s with
        laserCloudIn := ([] : List Pt)
        laserCloudInRing := inp.rings
        groundMat := emptyGround
        labelMat := emptyLabel } : IPState).fullCloud = (fun _ => nanPoint) := rfl
  have hei : emitInit ({ resetParameters s with
        laserCloudIn := ([] : List Pt)
        laserCloudInRing := inp.rings
        groundMat := emptyGround
        labelMat := emptyLabel } : IPState) = emptyEmit s := rfl
  unfold afterSegmentation
  rw [afterGround_empty orcs inp s hpts, cloudSegmentation_eq, hseg]

/-- Empty scan, field 4: `labelCount` stays `1`. -/
theorem es_labelCount (orcs : Oracles) (inp : InputScan) (s : IPState)
    (hpts : inp.points = []) :
    (afterSegmentation orcs inp s).labelCount = 1 := by
  have hr : ({ resetParameters s with
        laserCloudIn := ([] : List Pt)
        laserCloudInRing := inp.rings
        groundMat := emptyGround
        labelMat := emptyLabel } : IPState).rangeMat = (fun _ _ => FLT_MAX) := rfl
  have hl : ({ resetParameters s with
        laserCloudIn := ([] : List Pt)
        laserCloudInRing := inp.rings
        groundMat := emptyGround
        labelMat := emptyLabel } : IPState).labelMat = emptyLabel := rfl
  have hc : ({ resetParameters s with
        laserCloudIn := ([] : List Pt)
        laserCloudInRing := inp.rings
        groundMat := emptyGround
        labelMat := emptyLabel } : IPState).labelCount = 1 := rfl
  have hseg : segmentAll orcs.seg ({ resetParameters s with
        laserCloudIn := ([] : List Pt)
        laserCloudInRing := inp.rings
        groundMat := emptyGround
        labelMat := emptyLabel } : IPState).rangeMat
      (⟨({ resetParameters s with
        laserCloudIn := ([] : List Pt)
        laserCloudInRing := inp.rings
        groundMat := emptyGround
        labelMat := emptyLabel } : IPState).labelMat, ({ resetParameters s with
        laserCloudIn := ([] : List Pt)
        laserCloudInRing := inp.rings
        groundMat := emptyGround
        labelMat := emptyLabel } : IPState).labelCount⟩ : LabelState) =
      (⟨emptyLabel, 1⟩ : LabelState) := by
    rw [hr, hl, hc]
    exact segmentAll_empty orcs.seg
  have hlm : ((⟨emptyLabel, 1⟩ : LabelState)).labelMat = emptyLabel := rfl
  have hg : ({ resetParameters s with
        laserCloudIn := ([] : List Pt)
        laserCloudInRing := inp.rings
        groundMat := emptyGround
        labelMat := emptyLabel } : IPState).groundMat = emptyGround := rfl
  have hf : ({ resetParameters s with
        laserCloudIn := ([] : List Pt)
        laserCloudInRing := inp.rings
        groundMat := emptyGround
        labelMat := emptyLabel } : IPState).fullCloud = (fun _ => nanPoint) := rfl
  have hei : emitInit ({ resetParameters s with
        laserCloudIn := ([] : List Pt)
        laserCloudInRing := inp.rings
        groundMat := emptyGround
        labelMat := emptyLabel } : IPState) = emptyEmit s := rfl
  unfold afterSegmentation
  rw [afterGround_empty orcs inp s hpts, cloudSegmentation_eq, hseg]

/-- Empty scan, field 5: the segmented cloud is empty. -/
theorem es_segmentedCloud (orcs : Oracles) (inp : InputScan) (s : IPState)
    (hpts : inp.points = []) :
    (afterSegmentation orcs inp s).segmentedCloud = [] := by
  have hr : ({ resetParameters s with
        laserCloudIn := ([] : List Pt)
        laserCloudInRing := inp.rings
        groundMat := emptyGround
        labelMat := emptyLabel } : IPState).rangeMat = (fun _ _ => FLT_MAX) := rfl
  have hl : ({ resetParameters s with
        laserCloudIn := ([] : List Pt)
        laserCloudInRing := inp.rings
        groundMat := emptyGround
        labelMat := emptyLabel } : IPState).labelMat = emptyLabel := rfl
  have hc : ({ resetParameters s with
        laserCloudIn := ([] : List Pt)
        laserCloudInRing := inp.rings
        groundMat := emptyGround
        labelMat := emptyLabel } : IPState).labelCount = 1 := rfl
  have hseg : segmentAll orcs.seg ({ resetParameters s with
        laserCloudIn := ([] : List Pt)
        laserCloudInRing := inp.rings
        groundMat := emptyGround
        labelMat := emptyLabel } : IPState).rangeMat
      (⟨({ resetParameters s with
        laserCloudIn := ([] : List Pt)
        laserCloudInRing := inp.rings
        groundMat := emptyGround
        labelMat := emptyLabel } : IPState).labelMat, ({ resetParameters s with
        laserCloudIn := ([] : List Pt)
        laserCloudInRing := inp.rings
        groundMat := emptyGround
        labelMat := emptyLabel } : IPState).labelCount⟩ : LabelState) =
      (⟨emptyLabel, 1⟩ : LabelState) := by
    rw [hr, hl, hc]
    exact segmentAll_empty orcs.seg
  have hlm : ((⟨emptyLabel, 1⟩ : LabelState)).labelMat = emptyLabel := rfl
  have hg : ({ resetParameters s with
        laserCloudIn := ([] : List Pt)
        laserCloudInRing := inp.rings
        groundMat := emptyGround
        labelMat := emptyLabel } : IPState).groundMat = emptyGround := rfl
  have hf : ({ resetParameters s with
        laserCloudIn := ([] : List Pt)
        laserCloudInRing := inp.rings
        groundMat := emptyGround
        labelMat := emptyLabel } : IPState).fullCloud = (fun _ => nanPoint) := rfl
  have hei : emitInit ({ resetParameters s with
        laserCloudIn := ([] : List Pt)
        laserCloudInRing := inp.rings
        groundMat := emptyGround
        labelMat := emptyLabel } : IPState) = emptyEmit s := rfl
  have h2 : (emitAll emptyLabel emptyGround (fun _ _ => FLT_MAX)
      (fun _ => nanPoint) (emptyEmit s)).segmentedCloud =
      (emptyEmit s).segmentedCloud := by
    unfold emitAll
    exact (emitAll_noop emptyLabel emptyGround (fun _ _ => FLT_MAX)
      (fun _ => nanPoint) emptyGrids_noemit N_SCAN.toNat (emptyEmit s)).2.1
  have hsc : (emptyEmit s).segmentedCloud = ([] : List Pt) := rfl
  unfold afterSegmentation
  rw [afterGround_empty orcs inp s hpts, cloudSegmentation_eq, hei, hseg, hlm,
    hg, hr, hf, h2, hsc]

/-- Empty scan, field 6: the outlier cloud is empty. -/
theorem es_outlierCloud (orcs : Oracles) (inp : InputScan) (s : IPState)
    (hpts : inp.points = []) :
    (afterSegmentation orcs inp s).outlierCloud = [] := by
  have hr : ({ resetParameters s with
        laserCloudIn := ([] : List Pt)
        laserCloudInRing := inp.rings
        groundMat := emptyGround
        labelMat := emptyLabel } : IPState).rangeMat = (fun _ _ => FLT_MAX) := rfl
  have hl : ({ resetParameters s with
        laserCloudIn := ([] : List Pt)
        laserCloudInRing := inp.rings
        groundMat := emptyGround
        labelMat := emptyLabel } : IPState).labelMat = emptyLabel := rfl
  have hc : ({ resetParameters s with
        laserCloudIn := ([] : List Pt)
        laserCloudInRing := inp.rings
        groundMat := emptyGround
        labelMat := emptyLabel } : IPState).labelCount = 1 := rfl
  have hseg : segmentAll orcs.seg ({ resetParameters s with
        laserCloudIn := ([] : List Pt)
        laserCloudInRing := inp.rings
        groundMat := emptyGround
        labelMat := emptyLabel } : IPState).rangeMat
      (⟨({ resetParameters s with
        laserCloudIn := ([] : List Pt)
        laserCloudInRing := inp.rings
        groundMat := emptyGround
        labelMat := emptyLabel } : IPState).labelMat, ({ resetParameters s with
        laserCloudIn := ([] : List Pt)
        laserCloudInRing := inp.rings
        groundMat := emptyGround
        labelMat := emptyLabel } : IPState).labelCount⟩ : LabelState) =
      (⟨emptyLabel, 1⟩ : LabelState) := by
    rw [hr, hl, hc]
    exact segmentAll_empty orcs.seg
  have hlm : ((⟨emptyLabel, 1⟩ : LabelState)).labelMat = emptyLabel := rfl
  have hg : ({ resetParameters s with
        laserCloudIn := ([] : List Pt)
        laserCloudInRing := inp.rings
        groundMat := emptyGround
        labelMat := emptyLabel } : IPState).groundMat = emptyGround := rfl
  have hf : ({ resetParameters s with
        laserCloudIn := ([] : List Pt)
        laserCloudInRing := inp.rings
        groundMat := emptyGround
        labelMat := emptyLabel } : IPState).fullCloud = (fun _ => nanPoint) := rfl
  have hei : emitInit ({ resetParameters s with
        laserCloudIn := ([] : List Pt)
        laserCloudInRing := inp.rings
        groundMat := emptyGround
        labelMat := emptyLabel } : IPState) = emptyEmit s := rfl
  have h3 : (emitAll emptyLabel emptyGround (fun _ _ => FLT_MAX)
      (fun _ => nanPoint) (emptyEmit s)).outlierCloud =
      (emptyEmit s).outlierCloud := by
    unfold emitAll
    exact (emitAll_noop emptyLabel emptyGround (fun _ _ => FLT_MAX)
      (fun _ => nanPoint) emptyGrids_noemit N_SCAN.toNat (emptyEmit s)).2.2.1
  have hoc : (emptyEmit s).outlierCloud = ([] : List Pt) := rfl
  unfold afterSegmentation
  rw [afterGround_empty orcs inp s hpts, cloudSegmentation_eq, hei, hseg, hlm,
    hg, hr, hf, h3, hoc]

/-- Empty scan, field 7: the pure segmented cloud is empty. -/
theorem es_pureCloud (orcs : Oracles) (inp : InputScan) (s : IPState)
    (hpts : inp.points = []) :
    (afterSegmentation orcs inp s).segmentedCloudPure = [] := by
  have hr : ({ resetParameters s with
        laserCloudIn := ([] : List Pt)
        laserCloudInRing := inp.rings
        groundMat := emptyGround
        labelMat := emptyLabel } : IPState).rangeMat = (fun _ _ => FLT_MAX) := rfl
  have hl : ({ resetParameters s with
        laserCloudIn := ([] : List Pt)
        laserCloudInRing := inp.rings
        groundMat := emptyGround
        labelMat := emptyLabel } : IPState).labelMat = emptyLabel := rfl
  have hc : ({ resetParameters s with
        laserCloudIn := ([] : List Pt)
        laserCloudInRing := inp.rings
        groundMat := emptyGround
        labelMat := emptyLabel } : IPState).labelCount = 1 := rfl
  have hseg : segmentAll orcs.seg ({ resetParameters s with
        laserCloudIn := ([] : List Pt)
        laserCloudInRing := inp.rings
        groundMat := emptyGround
        labelMat := emptyLabel } : IPState).rangeMat
      (⟨({ resetParameters s with
        laserCloudIn := ([] : List Pt)
        laserCloudInRing := inp.rings
        groundMat := emptyGround
        labelMat := emptyLabel } : IPState).labelMat, ({ resetParameters s with
        laserCloudIn := ([] : List Pt)
        laserCloudInRing := inp.rings
        groundMat := emptyGround
        labelMat := emptyLabel } : IPState).labelCount⟩ : LabelState) =
      (⟨emptyLabel, 1⟩ : LabelState) := by
    rw [hr, hl, hc]
    exact segmentAll_empty orcs.seg
  have hlm : ((⟨emptyLabel, 1⟩ : LabelState)).labelMat = emptyLabel := rfl
  have hg : ({ resetParameters s with
        laserCloudIn := ([] : List Pt)
        laserCloudInRing := inp.rings
        groundMat := emptyGround
        labelMat := emptyLabel } : IPState).groundMat = emptyGround := rfl
  have hf : ({ resetParameters s with
        laserCloudIn := ([] : List Pt)
        laserCloudInRing := inp.rings
        groundMat := emptyGround
        labelMat := emptyLabel } : IPState).fullCloud = (fun _ => nanPoint) := rfl
  have hei : emitInit ({ resetParameters s with
        laserCloudIn := ([] : List Pt)
        laserCloudInRing := inp.rings
        groundMat := emptyGround
        labelMat := emptyLabel } : IPState) = emptyEmit s := rfl
  have hsp : ({ resetParameters s with
        laserCloudIn := ([] : List Pt)
        laserCloudInRing := inp.rings
        groundMat := emptyGround
        labelMat := emptyLabel } : IPState).segmentedCloudPure = ([] : List Pt) := rfl
  have hp : pureCloudOf emptyLabel (fun _ => nanPoint) = [] := by
    refine pureCloudOf_empty _ _ (fun i j _ _ => ?_)
    unfold emptyLabel
    split_ifs <;> omega
  have happ : ([] : List Pt) ++ ([] : List Pt) = [] := rfl
  unfold afterSegmentation
  rw [afterGround_empty orcs inp s hpts, cloudSegmentation_eq, hseg, hlm, hsp,
    hf, hp, happ, ite_self]

/-- Empty scan, field 8: every beam records `start_ring_index = 4`. -/
theorem es_startRing (orcs : Oracles) (inp : InputScan) (s : IPState)
    (hpts : inp.points = []) :
    (afterSegmentation orcs inp s).startRingIndex =
      (fun r => if 0 ≤ r ∧ r < N_SCAN then 4 else s.startRingIndex r) := by
  have hr : ({ resetParameters s with
        laserCloudIn := ([] : List Pt)
        laserCloudInRing := inp.rings
        groundMat := emptyGround
        labelMat := emptyLabel } : IPState).rangeMat = (fun _ _ => FLT_MAX) := rfl
  have hl : ({ resetParameters s with
        laserCloudIn := ([] : List Pt)
        laserCloudInRing := inp.rings
        groundMat := emptyGround
        labelMat := emptyLabel } : IPState).labelMat = emptyLabel := rfl
  have hc : ({ resetParameters s with
        laserCloudIn := ([] : List Pt)
        laserCloudInRing := inp.rings
        groundMat := emptyGround
        labelMat := emptyLabel } : IPState).labelCount = 1 := rfl
  have hseg : segmentAll orcs.seg ({ resetParameters s with
        laserCloudIn := ([] : List Pt)
        laserCloudInRing := inp.rings
        groundMat := emptyGround
        labelMat := emptyLabel } : IPState).rangeMat
      (⟨({ resetParameters s with
        laserCloudIn := ([] : List Pt)
        laserCloudInRing := inp.rings
        groundMat := emptyGround
        labelMat := emptyLabel } : IPState).labelMat, ({ resetParameters s with
        laserCloudIn := ([] : List Pt)
        laserCloudInRing := inp.rings
        groundMat := emptyGround
        labelMat := emptyLabel } : IPState).labelCount⟩ : LabelState) =
      (⟨emptyLabel, 1⟩ : LabelState) := by
    rw [hr, hl, hc]
    exact segmentAll_empty orcs.seg
  have hlm : ((⟨emptyLabel, 1⟩ : LabelState)).labelMat = emptyLabel := rfl
  have hg : ({ resetParameters s with
        laserCloudIn := ([] : List Pt)
        laserCloudInRing := inp.rings
        groundMat := emptyGround
        labelMat := emptyLabel } : IPState).groundMat = emptyGround := rfl
  have hf : ({ resetParameters s with
        laserCloudIn := ([] : List Pt)
        laserCloudInRing := inp.rings
        groundMat := emptyGround
        labelMat := emptyLabel } : IPState).fullCloud = (fun _ => nanPoint) := rfl
  have hei : emitInit ({ resetParameters s with
        laserCloudIn := ([] : List Pt)
        laserCloudInRing := inp.rings
        groundMat := emptyGround
        labelMat := emptyLabel } : IPState) = emptyEmit s := rfl
  have h7 : (emitAll emptyLabel emptyGround (fun _ _ => FLT_MAX)
      (fun _ => nanPoint) (emptyEmit s)).startRingIndex =
      (fun r => if 0 ≤ r ∧ r < ((N_SCAN.toNat : Nat) : Int) then
          (emptyEmit s).sizeOfSegCloud - 1 + 5
        else (emptyEmit s).startRingIndex r) := by
    unfold emitAll
    exact (emitAll_noop emptyLabel emptyGround (fun _ _ => FLT_MAX)
      (fun _ => nanPoint) emptyGrids_noemit N_SCAN.toNat
      (emptyEmit s)).2.2.2.2.2.2.1
  have hstart : (fun r => if 0 ≤ r ∧ r < ((N_SCAN.toNat : Nat) : Int) then
        (emptyEmit s).sizeOfSegCloud - 1 + 5
      else (emptyEmit s).startRingIndex r) =
      (fun r => if 0 ≤ r ∧ r < N_SCAN then 4 else s.startRingIndex r) := by
    funext r
    rw [natCast_N_SCAN]
    norm_num [emptyEmit]
  unfold afterSegmentation
  rw [afterGround_empty orcs inp s hpts, cloudSegmentation_eq, hei, hseg, hlm,
    hg, hr, hf, h7, hstart]

/-- Empty scan, field 9: every beam records `end_ring_index = -6`. -/
theorem es_endRing (orcs : Oracles) (inp : InputScan) (s : IPState)
    (hpts : inp.points = []) :
    (afterSegmentation orcs inp s).endRingIndex =
      (fun r => if 0 ≤ r ∧ r < N_SCAN then -6 else s.endRingIndex r) := by
  have hr : ({ resetParameters s with
        laserCloudIn := ([] : List Pt)
        laserCloudInRing := inp.rings
        groundMat := emptyGround
        labelMat := emptyLabel } : IPState).rangeMat = (fun _ _ => FLT_MAX) := rfl
  have hl : ({ resetParameters s with
        laserCloudIn := ([] : List Pt)
        laserCloudInRing := inp.rings
        groundMat := emptyGround
        labelMat := emptyLabel } : IPState).labelMat = emptyLabel := rfl
  have hc : ({ resetParameters s with
        laserCloudIn := ([] : List Pt)
        laserCloudInRing := inp.rings
        groundMat := emptyGround
        labelMat := emptyLabel } : IPState).labelCount = 1 := rfl
  have hseg : segmentAll orcs.seg ({ resetParameters s with
        laserCloudIn := ([] : List Pt)
        laserCloudInRing := inp.rings
        groundMat := emptyGround
        labelMat := emptyLabel } : IPState).rangeMat
      (⟨({ resetParameters s with
        laserCloudIn := ([] : List Pt)
        laserCloudInRing := inp.rings
        groundMat := emptyGround
        labelMat := emptyLabel } : IPState).labelMat, ({ resetParameters s with
        laserCloudIn := ([] : List Pt)
        laserCloudInRing := inp.rings
        groundMat := emptyGround
        labelMat := emptyLabel } : IPState).labelCount⟩ : LabelState) =
      (⟨emptyLabel, 1⟩ : LabelState) := by
    rw [hr, hl, hc]
    exact segmentAll_empty orcs.seg
  have hlm : ((⟨emptyLabel, 1⟩ : LabelState)).labelMat = emptyLabel := rfl
  have hg : ({ resetParameters s with
        laserCloudIn := ([] : List Pt)
        laserCloudInRing := inp.rings
        groundMat := emptyGround
        labelMat := emptyLabel } : IPState).groundMat = emptyGround := rfl
  have hf : ({ resetParameters s with
        laserCloudIn := ([] : List Pt)
        laserCloudInRing := inp.rings
        groundMat := emptyGround
        labelMat := emptyLabel } : IPState).fullCloud = (fun _ => nanPoint) := rfl
  have hei : emitInit ({ resetParameters s with
        laserCloudIn := ([] : List Pt)
        laserCloudInRing := inp.rings
        groundMat := emptyGround
        labelMat := emptyLabel } : IPState) = emptyEmit s := rfl
  have h8 : (emitAll emptyLabel emptyGround (fun _ _ => FLT_MAX)
      (fun _ => nanPoint) (emptyEmit s)).endRingIndex =
      (fun r => if 0 ≤ r ∧ r < ((N_SCAN.toNat : Nat) : Int) then
          (emptyEmit s).sizeOfSegCloud - 1 - 5
        else (emptyEmit s).endRingIndex r) := by
    unfold emitAll
    exact (emitAll_noop emptyLabel emptyGround (fun _ _ => FLT_MAX)
      (fun _ => nanPoint) emptyGrids_noemit N_SCAN.toNat
      (emptyEmit s)).2.2.2.2.2.2.2
  have hend : (fun r => if 0 ≤ r ∧ r < ((N_SCAN.toNat : Nat) : Int) then
        (emptyEmit s).sizeOfSegCloud - 1 - 5
      else (emptyEmit s).endRingIndex r) =
      (fun r => if 0 ≤ r ∧ r < N_SCAN then -6 else s.endRingIndex r) := by
    funext r
    rw [natCast_N_SCAN]
    norm_num [emptyEmit]
  unfold afterSegmentation
  rw [afterGround_empty orcs inp s hpts, cloudSegmentation_eq, hei, hseg, hlm,
    hg, hr, hf, h8, hend]

/-- The complete state characterization of one pipeline invocation on a
zero-point scan, from any pre-scan state and for every oracle choice. -/
theorem emptyScan_state (orcs : Oracles) (inp : InputScan) (s : IPState)
    (hpts : inp.points = []) :
    (afterSegmentation orcs inp s).rangeMat = (fun _ _ => FLT_MAX) ∧
    (afterSegmentation orcs inp s).groundMat = emptyGround ∧
    (afterSegmentation orcs inp s).labelMat = emptyLabel ∧
    (afterSegmentation orcs inp s).labelCount = 1 ∧
    (afterSegmentation orcs inp s).segmentedCloud = [] ∧
    (afterSegmentation orcs inp s).outlierCloud = [] ∧
    (afterSegmentation orcs inp s).segmentedCloudPure = [] ∧
    (afterSegmentation orcs inp s).startRingIndex =
      (fun r => if 0 ≤ r ∧ r < N_SCAN then 4 else s.startRingIndex r) ∧
    (afterSegmentation orcs inp s).endRingIndex =
      (fun r => if 0 ≤ r ∧ r < N_SCAN then -6 else s.endRingIndex r) :=
  ⟨es_rangeMat orcs inp s hpts, es_groundMat orcs inp s hpts,
   es_labelMat orcs inp s hpts, es_labelCount orcs inp s hpts,
   es_segmentedCloud orcs inp s hpts, es_outlierCloud orcs inp s hpts,
   es_pureCloud orcs inp s hpts, es_startRing orcs inp s hpts,
   es_endRing orcs inp s hpts⟩

/-- C1 counterexample.  On the zero-point scan the claim fails three ways:
`start_ring_index[0]` is `4` and `end_ring_index[0]` is `-6` (the emission
loop records `sizeOfSegCloud - 1 ± 5` with `sizeOfSegCloud = 0`), not `0`;
the ground grid holds `-1` (not its default `0`) on the bottom rows; and
the label grid holds `-1` (not its default `0`) everywhere, because every
cell has `rangeMat = FLT_MAX`.  The segmented cloud is empty as claimed. -/
theorem c1_counterexample :
    (afterSegmentation trivialOracles emptyScanInput allocatedState).startRingIndex 0 = 4 ∧
    (afterSegmentation trivialOracles emptyScanInput allocatedState).startRingIndex 0 ≠ 0 ∧
    (afterSegmentation trivialOracles emptyScanInput allocatedState).endRingIndex 0 = -6 ∧
    (afterSegmentation trivialOracles emptyScanInput allocatedState).groundMat 0 0 = -1 ∧
    (afterSegmentation trivialOracles emptyScanInput allocatedState).labelMat 0 0 = -1 ∧
    (afterSegmentation trivialOracles emptyScanInput allocatedState).segmentedCloud = [] := by
  rcases emptyScan_state trivialOracles emptyScanInput allocatedState rfl with
    ⟨_, hg, hl, _, hs, _, _, hsr, her⟩
  rw [hg, hl, hsr, her]
  refine ⟨?_, ?_, ?_, ?_, ?_, hs⟩
  · dsimp only
    rw [if_pos (by norm_num [N_SCAN])]
  · dsimp only
    rw [if_pos (by norm_num [N_SCAN])]
    decide
  · dsimp only
    rw [if_pos (by norm_num [N_SCAN])]
  · unfold emptyGround
    rw [if_pos (by norm_num [groundScanInd, Horizon_SCAN])]
  · unfold emptyLabel
    rw [if_pos (by norm_num [N_SCAN, Horizon_SCAN])]

/-- C1 (amended): a zero-point scan completes and emits an empty segmented
cloud (and empty outlier and pure clouds), and the range grid keeps its
default `FLT_MAX`; but the ground grid is set to `-1` on the bottom
`groundScanInd` rows, the label grid is set to `-1` on the whole grid, and
the ring indices record `start_ring_index[r] = 4`,
`end_ring_index[r] = -6` for every beam `r` (not `0`): with
`sizeOfSegCloud = 0` the emission loop stores `0 - 1 + 5` and `0 - 1 - 5`.
The start/end-angle computation reads the empty input buffer out of
bounds; no emitted artifact depends on its result. -/
theorem c1_empty_scan (orcs : Oracles) (inp : InputScan) (s : IPState)
    (hpts : inp.points = []) (r c : Int) (hr0 : 0 ≤ r) (hrN : r < N_SCAN)
    (hc0 : 0 ≤ c) (hcH : c < Horizon_SCAN) :
    (afterSegmentation orcs inp s).rangeMat r c = FLT_MAX ∧
    (afterSegmentation orcs inp s).groundMat r c =
      (if r < groundScanInd then -1 else 0) ∧
    (afterSegmentation orcs inp s).labelMat r c = -1 ∧
    (afterSegmentation orcs inp s).segmentedCloud = [] ∧
    (afterSegmentation orcs inp s).outlierCloud = [] ∧
    (afterSegmentation orcs inp s).segmentedCloudPure = [] ∧
    (afterSegmentation orcs inp s).startRingIndex r = 4 ∧
    (afterSegmentation orcs inp s).endRingIndex r = -6 := by
  rcases emptyScan_state orcs inp s hpts with
    ⟨hr, hg, hl, _, hs, ho, hp, hsr, her⟩
  rw [hr, hg, hl, hsr, her]
  refine ⟨rfl, ?_, ?_, hs, ho, hp, ?_, ?_⟩
  · unfold emptyGround
    by_cases hrG : r < groundScanInd
    · rw [if_pos ⟨hr0, hrG, hc0, hcH⟩, if_pos hrG]
    · rw [if_neg (fun hcon => hrG hcon.2.1), if_neg hrG]
  · unfold emptyLabel
    rw [if_pos ⟨hr0, hrN, hc0, hcH⟩]
  · dsimp only
    rw [if_pos ⟨hr0, hrN⟩]
  · dsimp only
    rw [if_pos ⟨hr0, hrN⟩]

/-- Witness for C1 (amended) at the concrete zero-point input, beam 3,
column 7. -/
theorem c1_empty_scan_witness :
    (afterSegmentation trivialOracles emptyScanInput allocatedState).rangeMat 3 7 = FLT_MAX ∧
    (afterSegmentation trivialOracles emptyScanInput allocatedState).groundMat 3 7 =
      (if (3 : Int) < groundScanInd then -1 else 0) ∧
    (afterSegmentation trivialOracles emptyScanInput allocatedState).labelMat 3 7 = -1 ∧
    (afterSegmentation trivialOracles emptyScanInput allocatedState).segmentedCloud = [] ∧
    (afterSegmentation trivialOracles emptyScanInput allocatedState).outlierCloud = [] ∧
    (afterSegmentation trivialOracles emptyScanInput allocatedState).segmentedCloudPure = [] ∧
    (afterSegmentation trivialOracles emptyScanInput allocatedState).startRingIndex 3 = 4 ∧
    (afterSegmentation trivialOracles emptyScanInput allocatedState).endRingIndex 3 = -6 :=
  c1_empty_scan trivialOracles emptyScanInput allocatedState rfl 3 7
    (by norm_num) (by norm_num [N_SCAN]) (by norm_num)
    (by norm_num [Horizon_SCAN])

/-! ## Claim C8 — non-dense input with ring channel -/

/-- `resetParameters` fixes the freshly allocated state. -/
theorem resetParameters_allocated :
    resetParameters allocatedState = allocatedState := rfl

/-- `publishCloud` always publishes, and the published record carries the
state's `segMsg` vectors and clouds verbatim. -/
theorem publishCloud_fields (s' : IPState) :
    ∃ out : ScanOutputs, publishCloud s' = some out ∧
      out.startRingIndex = s'.startRingIndex ∧
      out.endRingIndex = s'.endRingIndex ∧
      out.segmentedCloud = s'.segmentedCloud :=
  ⟨_, rfl, rfl, rfl, rfl⟩

/-- C8 counterexample.  A scan whose ring channel is declared present
(`useCloudRing = true`) and whose batch is **not** marked dense: the claim
says the scan is aborted at ingest with nothing emitted and the core
awaiting the next scan.  Instead `copyPointCloud` merely requests a
whole-node shutdown (`ros::shutdown()`) and returns; `cloudHandler` then
runs the complete pipeline on that very scan and publishes its artifacts —
here the concrete zero-point non-dense scan is fully processed and emitted
(`publishCloud` returns the segmentation record, with the emission loop's
`start_ring_index[0] = 4` and `end_ring_index[0] = -6`), alongside the
raised shutdown flag. -/
theorem c8_counterexample :
    (cloudHandler trivialOracles ⟨[], fun _ => 0, false⟩ allocatedState).2.2 = true ∧
    ∃ out : ScanOutputs,
      (cloudHandler trivialOracles ⟨[], fun _ => 0, false⟩ allocatedState).2.1 =
        some out ∧
      out.startRingIndex 0 = 4 ∧ out.endRingIndex 0 = -6 ∧
      out.segmentedCloud = [] := by
  have hpipe : (cloudHandler trivialOracles ⟨[], fun _ => 0, false⟩ allocatedState).2.1 =
      publishCloud (afterSegmentation trivialOracles ⟨[], fun _ => 0, false⟩
        allocatedState) := by
    unfold cloudHandler afterSegmentation afterGround
    rw [resetParameters_allocated]
  rcases emptyScan_state trivialOracles ⟨[], fun _ => 0, false⟩ allocatedState rfl with
    ⟨_, _, _, _, hs, _, _, hsr, her⟩
  rcases publishCloud_fields (afterSegmentation trivialOracles
      ⟨[], fun _ => 0, false⟩ allocatedState) with ⟨out, hout, ho1, ho2, ho3⟩
  refine ⟨rfl, out, ?_, ?_, ?_, ?_⟩
  · rw [hpipe]
    exact hout
  · rw [ho1, hsr]
    norm_num [N_SCAN]
  · rw [ho2, her]
    norm_num [N_SCAN]
  · rw [ho3, hs]

/-- C8 (amended): when the beam-index channel is declared present
(`useCloudRing`) and the input batch is not marked dense, the handler logs
the error and requests a whole-node shutdown, but does **not** abort the
scan: control returns from `copyPointCloud` and the handler processes the
current scan through every remaining stage and publishes its artifacts. -/
theorem c8_shutdown_not_abort (orcs : Oracles) (inp : InputScan)
    (s : IPState) (hnd : inp.isDense = false) :
    (cloudHandler orcs inp s).2.2 = true ∧
    ((cloudHandler orcs inp s).2.1).isSome = true := by
  constructor
  · unfold cloudHandler copyPointCloud
    dsimp only
    rw [hnd]
    rfl
  · unfold cloudHandler publishCloud
    rfl

/-- Witness for C8 (amended): a concrete one-point non-dense scan. -/
theorem c8_shutdown_witness :
    (cloudHandler trivialOracles ⟨[⟨0, 10, 0, 1⟩], fun _ => 7, false⟩
      allocatedState).2.2 = true ∧
    ((cloudHandler trivialOracles ⟨[⟨0, 10, 0, 1⟩], fun _ => 7, false⟩
      allocatedState).2.1).isSome = true :=
  c8_shutdown_not_abort trivialOracles ⟨[⟨0, 10, 0, 1⟩], fun _ => 7, false⟩
    allocatedState rfl

/-- The acceptance test, unfolded. -/
theorem feasible_iff (b : BfsState) :
    feasibleOf b = true ↔ 30 ≤ b.allPushedIndSize ∨
      (segmentValidPointNum ≤ b.allPushedIndSize ∧
        segmentValidLineNum ≤ lineCountOf b) := by
  unfold feasibleOf
  split_ifs with h1 h2
  · constructor
    · intro _
      exact Or.inl h1
    · intro _
      rfl
  · rw [decide_eq_true_iff]
    constructor
    · intro h3
      exact Or.inr ⟨h2, h3⟩
    · rintro (h | ⟨_, h3⟩)
      · exact absurd h h1
      · exact h3
  · constructor
    · intro h
      cases h
    · rintro (h | ⟨h5, _⟩)
      · exact absurd h h1
      · exact absurd h5 h2

/-- The rejection loop relabels every recorded cell. -/
theorem rejectRelabel_hits (b : BfsState) (n : Nat) :
    ∀ x y : Int,
    (∃ k, k < n ∧ b.allPushedIndX k = x ∧ b.allPushedIndY k = y) →
    ((List.range n).foldl
      (fun lm k => upd2 lm (b.allPushedIndX k) (b.allPushedIndY k) SENTINEL_DROP)
      b.labelMat) x y = SENTINEL_DROP := by
  induction n with
  | zero =>
    rintro x y ⟨k, hk, -, -⟩
    omega
  | succ m ih =>
    rintro x y ⟨k, hk, hx, hy⟩
    rw [List.range_succ, List.foldl_append, List.foldl_cons, List.foldl_nil]
    unfold upd2
    by_cases hxy : x = b.allPushedIndX m ∧ y = b.allPushedIndY m
    · rw [if_pos hxy]
    · rw [if_neg hxy]
      refine ih x y ⟨k, ?_, hx, hy⟩
      rcases Nat.lt_succ_iff_lt_or_eq.mp hk with h | h
      · exact h
      · subst h
        exact absurd ⟨hx.symm, hy.symm⟩ hxy

/-- C2 (amended): a cluster of at least 30 cells is always accepted; a
cluster of at least `segmentValidPointNum` (5) cells is accepted exactly
when at least `segmentValidLineNum` (3) beams are *flagged*, where a beam is
flagged only when it receives a pushed neighbour — the seed's beam is not
flagged by seeding; every other cluster is rejected and every recorded cell
is relabelled to `SENTINEL_DROP`. -/
theorem c2_cluster_acceptance (orc : SegOracle) (range : Int → Int → ℚ)
    (row col : Int) (ls : LabelState) :
    ((labelComponents orc range row col ls).labelCount = ls.labelCount + 1 ↔
      30 ≤ (bfsResult orc range row col ls).allPushedIndSize ∨
        (segmentValidPointNum ≤ (bfsResult orc range row col ls).allPushedIndSize ∧
          segmentValidLineNum ≤ lineCountOf (bfsResult orc range row col ls))) ∧
    ((labelComponents orc range row col ls).labelCount = ls.labelCount →
      ∀ k : Nat, k < (bfsResult orc range row col ls).allPushedIndSize →
        (labelComponents orc range row col ls).labelMat
          ((bfsResult orc range row col ls).allPushedIndX k)
          ((bfsResult orc range row col ls).allPushedIndY k) = SENTINEL_DROP) := by
  have hb : labelComponents orc range row col ls =
      (if feasibleOf (bfsResult orc range row col ls) = true then
        (⟨(bfsResult orc range row col ls).labelMat, ls.labelCount + 1⟩ : LabelState)
      else ⟨rejectRelabel (bfsResult orc range row col ls), ls.labelCount⟩) := rfl
  rw [hb]
  by_cases hf : feasibleOf (bfsResult orc range row col ls) = true
  · rw [if_pos hf]
    constructor
    · constructor
      · intro _
        exact (feasible_iff _).mp hf
      · intro _
        rfl
    · intro hcount
      have hc2 : ls.labelCount + 1 = ls.labelCount := hcount
      omega
  · rw [if_neg hf]
    constructor
    · constructor
      · intro hcount
        have hc2 : ls.labelCount = ls.labelCount + 1 := hcount
        omega
      · intro hdisj
        exact absurd ((feasible_iff _).mpr hdisj) hf
    · intro _ k hk
      have := rejectRelabel_hits (bfsResult orc range row col ls)
        (bfsResult orc range row col ls).allPushedIndSize
        ((bfsResult orc range row col ls).allPushedIndX k)
        ((bfsResult orc range row col ls).allPushedIndY k)
        ⟨k, hk, rfl, rfl⟩
      exact this

/-- C2 counterexample.  The claim counts "distinct beams that contributed
at least one cell — including the seed cell's beam".  In this five-cell
cluster the cells span three beams (8, 9, 10) and `allPushedIndSize = 5`,
so the claim predicts acceptance; but `lineCountFlag` is set only when a
*neighbour* is pushed, the seed's beam 8 is never flagged, `lineCount = 2 <
3`, and the cluster is rejected: `labelCount` stays `1` and the seed cell is
relabelled `999999`.  (`queueSize = 0` certifies the BFS terminated.) -/
theorem c2_counterexample :
    c2label 8 10 = 0 ∧ c2label 9 10 = 0 ∧ c2label 10 10 = 0 ∧
    (bfsResult trueSegOracle c2range 8 10 ⟨c2label, 1⟩).allPushedIndSize = 5 ∧
    (bfsResult trueSegOracle c2range 8 10 ⟨c2label, 1⟩).queueSize = 0 ∧
    lineCountOf (bfsResult trueSegOracle c2range 8 10 ⟨c2label, 1⟩) = 2 ∧
    (bfsResult trueSegOracle c2range 8 10 ⟨c2label, 1⟩).lineCountFlag 8 = false ∧
    (bfsResult trueSegOracle c2range 8 10 ⟨c2label, 1⟩).lineCountFlag 9 = true ∧
    (bfsResult trueSegOracle c2range 8 10 ⟨c2label, 1⟩).lineCountFlag 10 = true ∧
    (labelComponents trueSegOracle c2range 8 10 ⟨c2label, 1⟩).labelCount = 1 ∧
    (labelComponents trueSegOracle c2range 8 10 ⟨c2label, 1⟩).labelMat 8 10 =
      SENTINEL_DROP := by
  decide

/-- Witness for C2 (amended): the rejected concrete cluster's recorded
cell 0 (the seed) ends at `999999`. -/
theorem c2_acceptance_witness :
    (labelComponents trueSegOracle c2range 8 10 ⟨c2label, 1⟩).labelCount = 1 ∧
    (labelComponents trueSegOracle c2range 8 10 ⟨c2label, 1⟩).labelMat
      ((bfsResult trueSegOracle c2range 8 10 ⟨c2label, 1⟩).allPushedIndX 0)
      ((bfsResult trueSegOracle c2range 8 10 ⟨c2label, 1⟩).allPushedIndY 0) =
      SENTINEL_DROP :=
  ⟨by decide,
   (c2_cluster_acceptance trueSegOracle c2range 8 10 ⟨c2label, 1⟩).2 (by decide) 0 (by decide)⟩

/-- A point update either preserves the old entry or installs the written
value. -/
theorem upd2_cases {α : Type} (g : Int → Int → α) (r c : Int) (v : α)
    (i j : Int) :
    upd2 g r c v i j = g i j ∨ upd2 g r c v i j = v := by
  unfold upd2
  split_ifs
  · exact Or.inr rfl
  · exact Or.inl rfl

/-- One neighbour step changes a cell's label only to the fresh id. -/
theorem processNeighbor_label (orc : SegOracle) (range : Int → Int → ℚ)
    (lc : Int) (fx fy : Int) (b : BfsState) (d : Int × Int) (i j : Int) :
    (processNeighbor orc range lc fx fy b d).labelMat i j = b.labelMat i j ∨
    (processNeighbor orc range lc fx fy b d).labelMat i j = lc := by
  unfold processNeighbor
  dsimp only
  split_ifs
  all_goals first
  | exact Or.inl rfl
  | (dsimp only
     exact upd2_cases b.labelMat _ _ lc i j)

/-- One BFS iteration changes a cell's label only to the fresh id. -/
theorem bfsStep_label (orc : SegOracle) (range : Int → Int → ℚ) (lc : Int)
    (b : BfsState) (i j : Int) :
    (bfsStep orc range lc b).labelMat i j = b.labelMat i j ∨
    (bfsStep orc range lc b).labelMat i j = lc := by
  unfold bfsStep
  dsimp only
  refine foldl_preserves
    (fun b' : BfsState => b'.labelMat i j = b.labelMat i j ∨ b'.labelMat i j = lc)
    _ ?_ neighborIterator _ ?_
  · intro s a hs
    rcases processNeighbor_label orc range lc _ _ s a i j with h | h
    · rw [h]
      exact hs
    · exact Or.inr h
  · dsimp only
    exact upd2_cases b.labelMat _ _ lc i j

/-- The whole BFS loop changes a cell's label only to the fresh id. -/
theorem bfsLoop_label (orc : SegOracle) (range : Int → Int → ℚ) (lc : Int)
    (fuel : Nat) (b : BfsState) (i j : Int) :
    (bfsLoop orc range lc fuel b).labelMat i j = b.labelMat i j ∨
    (bfsLoop orc range lc fuel b).labelMat i j = lc := by
  induction fuel generalizing b with
  | zero => exact Or.inl rfl
  | succ n ih =>
    have heq : bfsLoop orc range lc (n + 1) b =
        (if b.queueSize = 0 then b
         else bfsLoop orc range lc n (bfsStep orc range lc b)) := rfl
    rw [heq]
    by_cases h0 : b.queueSize = 0
    · rw [if_pos h0]
      exact Or.inl rfl
    · rw [if_neg h0]
      rcases ih (bfsStep orc range lc b) with h | h
      · rcases bfsStep_label orc range lc b i j with h2 | h2
        · exact Or.inl (h.trans h2)
        · exact Or.inr (h.trans h2)
      · exact Or.inr h

/-- The rejection loop changes a cell's label only to the sentinel. -/
theorem rejectRelabel_label (b : BfsState) (i j : Int) :
    rejectRelabel b i j = b.labelMat i j ∨
    rejectRelabel b i j = SENTINEL_DROP := by
  unfold rejectRelabel
  refine foldl_preserves
    (fun lm : Int → Int → Int => lm i j = b.labelMat i j ∨ lm i j = SENTINEL_DROP)
    _ ?_ _ _ (Or.inl rfl)
  intro lm k hlm
  rcases upd2_cases lm (b.allPushedIndX k) (b.allPushedIndY k) SENTINEL_DROP
      i j with h | h
  · rw [h]
    exact hlm
  · exact Or.inr h

/-- `labelComponents` changes a cell's label only to the fresh id or the
sentinel. -/
theorem labelComponents_label (orc : SegOracle) (range : Int → Int → ℚ)
    (row col : Int) (ls : LabelState) (i j : Int) :
    (labelComponents orc range row col ls).labelMat i j = ls.labelMat i j ∨
    (labelComponents orc range row col ls).labelMat i j = ls.labelCount ∨
    (labelComponents orc range row col ls).labelMat i j = SENTINEL_DROP := by
  have hb : labelComponents orc range row col ls =
      (if feasibleOf (bfsResult orc range row col ls) = true then
        (⟨(bfsResult orc range row col ls).labelMat, ls.labelCount + 1⟩ : LabelState)
      else ⟨rejectRelabel (bfsResult orc range row col ls), ls.labelCount⟩) := rfl
  have hloop : (bfsResult orc range row col ls).labelMat i j =
      (initBfs ls.labelMat row col).labelMat i j ∨
      (bfsResult orc range row col ls).labelMat i j = ls.labelCount :=
    bfsLoop_label orc range ls.labelCount bfsFuel (initBfs ls.labelMat row col) i j
  have hinit : (initBfs ls.labelMat row col).labelMat i j = ls.labelMat i j := rfl
  rw [hb]
  by_cases hf : feasibleOf (bfsResult orc range row col ls) = true
  · rw [if_pos hf]
    dsimp only
    rcases hloop with h | h
    · exact Or.inl (h.trans hinit)
    · exact Or.inr (Or.inl h)
  · rw [if_neg hf]
    dsimp only
    rcases rejectRelabel_label (bfsResult orc range row col ls) i j with h | h
    · rcases hloop with h2 | h2
      · exact Or.inl (h.trans (h2.trans hinit))
      · exact Or.inr (Or.inl (h.trans h2))
    · exact Or.inr (Or.inr h)

/-- The seed cell ends labelled with the fresh id or the sentinel — never
`0`: the first loop iteration always pops and marks it. -/
theorem labelComponents_seed (orc : SegOracle) (range : Int → Int → ℚ)
    (row col : Int) (ls : LabelState) :
    (labelComponents orc range row col ls).labelMat row col = ls.labelCount ∨
    (labelComponents orc range row col ls).labelMat row col = SENTINEL_DROP := by
  have hstep1 : bfsResult orc range row col ls =
      bfsLoop orc range ls.labelCount (N_SCAN * Horizon_SCAN).toNat
        (bfsStep orc range ls.labelCount (initBfs ls.labelMat row col)) := by
    have h1 : bfsResult orc range row col ls =
        (if (initBfs ls.labelMat row col).queueSize = 0 then
          initBfs ls.labelMat row col
         else bfsLoop orc range ls.labelCount (N_SCAN * Horizon_SCAN).toNat
           (bfsStep orc range ls.labelCount (initBfs ls.labelMat row col))) := rfl
    have h2 : (initBfs ls.labelMat row col).queueSize = 1 := rfl
    rw [h1, if_neg (by rw [h2]; omega)]
  have hfx : (initBfs ls.labelMat row col).queueIndX
      (initBfs ls.labelMat row col).queueStartInd = row := rfl
  have hfy : (initBfs ls.labelMat row col).queueIndY
      (initBfs ls.labelMat row col).queueStartInd = col := rfl
  have hseed1 : (bfsStep orc range ls.labelCount
      (initBfs ls.labelMat row col)).labelMat row col = ls.labelCount := by
    unfold bfsStep
    dsimp only
    refine foldl_preserves (fun b' : BfsState => b'.labelMat row col = ls.labelCount)
      _ ?_ neighborIterator _ ?_
    · intro s a hs
      rcases processNeighbor_label orc range ls.labelCount _ _ s a row col with
        h | h
      · rw [h]
        exact hs
      · exact h
    · dsimp only
      rw [hfx, hfy]
      unfold upd2
      rw [if_pos ⟨rfl, rfl⟩]
  have hseedloop : (bfsResult orc range row col ls).labelMat row col =
      ls.labelCount := by
    rw [hstep1]
    rcases bfsLoop_label orc range ls.labelCount (N_SCAN * Horizon_SCAN).toNat
      (bfsStep orc range ls.labelCount (initBfs ls.labelMat row col)) row col with
      h | h
    · exact h.trans hseed1
    · exact h
  have hb : labelComponents orc range row col ls =
      (if feasibleOf (bfsResult orc range row col ls) = true then
        (⟨(bfsResult orc range row col ls).labelMat, ls.labelCount + 1⟩ : LabelState)
      else ⟨rejectRelabel (bfsResult orc range row col ls), ls.labelCount⟩) := rfl
  rw [hb]
  by_cases hf : feasibleOf (bfsResult orc range row col ls) = true
  · rw [if_pos hf]
    dsimp only
    exact Or.inl hseedloop
  · rw [if_neg hf]
    dsimp only
    rcases rejectRelabel_label (bfsResult orc range row col ls) row col with h | h
    · exact Or.inl (h.trans hseedloop)
    · exact Or.inr h

/-- `labelComponents` never decreases `labelCount`. -/
theorem labelComponents_count_ge (orc : SegOracle) (range : Int → Int → ℚ)
    (row col : Int) (ls : LabelState) :
    ls.labelCount ≤ (labelComponents orc range row col ls).labelCount := by
  have hb : labelComponents orc range row col ls =
      (if feasibleOf (bfsResult orc range row col ls) = true then
        (⟨(bfsResult orc range row col ls).labelMat, ls.labelCount + 1⟩ : LabelState)
      else ⟨rejectRelabel (bfsResult orc range row col ls), ls.labelCount⟩) := rfl
  rw [hb]
  by_cases hf : feasibleOf (bfsResult orc range row col ls) = true
  · rw [if_pos hf]
    dsimp only
    omega
  · rw [if_neg hf]

/-- Reaching a fold position: a property established when the fold visits
index `t` and preserved afterwards holds after the whole fold. -/
theorem range_foldl_reach {σ : Type} (f : σ → Nat → σ) (K P : σ → Prop)
    (t : Nat)
    (hK : ∀ s k, K s → K (f s k))
    (hP : ∀ s k, K s → P s → P (f s k))
    (ht : ∀ s, K s → P (f s t)) :
    ∀ n, t < n → ∀ s, K s → P ((List.range n).foldl f s) := by
  intro n
  induction n with
  | zero =>
    intro h
    omega
  | succ m ih =>
    intro htn s hs
    rw [List.range_succ, List.foldl_append, List.foldl_cons, List.foldl_nil]
    have hKm : K ((List.range m).foldl f s) :=
      foldl_preserves K f (fun s' k hs' => hK s' k hs') (List.range m) s hs
    rcases Nat.lt_succ_iff_lt_or_eq.mp htn with h | h
    · exact hP _ m hKm (ih h s hs)
    · subst h
      exact ht _ hKm

/-- One row-major visit preserves a positive `labelCount`. -/
theorem segCell_count (orc : SegOracle) (rng : Int → Int → ℚ)
    (x y : Int) (ls : LabelState) (hlc : 1 ≤ ls.labelCount) :
    1 ≤ (if ls.labelMat x y = 0 then labelComponents orc rng x y ls
         else ls).labelCount := by
  by_cases hz : ls.labelMat x y = 0
  · rw [if_pos hz]
    have := labelComponents_count_ge orc rng x y ls
    omega
  · rw [if_neg hz]
    exact hlc

/-- One row-major visit keeps a visited cell nonzero. -/
theorem segCell_keep (orc : SegOracle) (rng : Int → Int → ℚ)
    (x y i0 j0 : Int) (ls : LabelState) (hlc : 1 ≤ ls.labelCount)
    (hp : ls.labelMat i0 j0 ≠ 0) :
    (if ls.labelMat x y = 0 then labelComponents orc rng x y ls
     else ls).labelMat i0 j0 ≠ 0 := by
  by_cases hz : ls.labelMat x y = 0
  · rw [if_pos hz]
    rcases labelComponents_label orc rng x y ls i0 j0 with h | h | h
    · rw [h]
      exact hp
    · rw [h]
      omega
    · rw [h]
      have hs : SENTINEL_DROP = 999999 := rfl
      omega
  · rw [if_neg hz]
    exact hp

/-- One row-major visit leaves a cell at its pre-pass value or a positive
label. -/
theorem segCell_val (orc : SegOracle) (rng : Int → Int → ℚ)
    (lm : Int → Int → Int) (x y i0 j0 : Int) (ls : LabelState)
    (hlc : 1 ≤ ls.labelCount)
    (hv : ls.labelMat i0 j0 = lm i0 j0 ∨ 1 ≤ ls.labelMat i0 j0) :
    (if ls.labelMat x y = 0 then labelComponents orc rng x y ls
     else ls).labelMat i0 j0 = lm i0 j0 ∨
    1 ≤ (if ls.labelMat x y = 0 then labelComponents orc rng x y ls
         else ls).labelMat i0 j0 := by
  by_cases hz : ls.labelMat x y = 0
  · rw [if_pos hz]
    rcases labelComponents_label orc rng x y ls i0 j0 with h | h | h
    · rw [h]
      exact hv
    · rw [h]
      exact Or.inr hlc
    · rw [h]
      have hs : SENTINEL_DROP = 999999 := rfl
      omega
  · rw [if_neg hz]
    exact hv

/-- The visit of a cell makes it nonzero. -/
theorem segCell_self (orc : SegOracle) (rng : Int → Int → ℚ)
    (x y : Int) (ls : LabelState) (hlc : 1 ≤ ls.labelCount) :
    (if ls.labelMat x y = 0 then labelComponents orc rng x y ls
     else ls).labelMat x y ≠ 0 := by
  by_cases hz : ls.labelMat x y = 0
  · rw [if_pos hz]
    rcases labelComponents_seed orc rng x y ls with h | h
    · rw [h]
      omega
    · rw [h]
      have hs : SENTINEL_DROP = 999999 := rfl
      omega
  · rw [if_neg hz]
    exact hz

/-- C10: after the labelling pass of `cloudSegmentation` completes, no
in-range cell of the label grid holds `0`: the pass enters with
`labelCount = 1` and every cell `0` (unvisited) or `-1` (ground/empty), it
visits every in-range cell in row-major order, a visited `0` cell is seeded
and ends with a positive id or the sentinel, and every later write is a
positive id or the sentinel — so each cell ends `-1` or positive. -/
theorem c10_no_zero_label (orc : SegOracle) (rng : Int → Int → ℚ)
    (lm : Int → Int → Int) (lc0 : Int) (hlc : 1 ≤ lc0)
    (i j : Nat) (hi : i < N_SCAN.toNat) (hj : j < Horizon_SCAN.toNat)
    (hcell : lm (i : Int) (j : Int) = 0 ∨ lm (i : Int) (j : Int) = -1) :
    (segmentAll orc rng ⟨lm, lc0⟩).labelMat (i : Int) (j : Int) ≠ 0 ∧
    ((segmentAll orc rng ⟨lm, lc0⟩).labelMat (i : Int) (j : Int) = -1 ∨
      1 ≤ (segmentAll orc rng ⟨lm, lc0⟩).labelMat (i : Int) (j : Int)) := by
  have hKcell : ∀ (x : Int) (ls : LabelState) (k : Nat), 1 ≤ ls.labelCount →
      1 ≤ ((fun ls (j : Nat) =>
        if ls.labelMat x (j : Int) = 0 then
          labelComponents orc rng x (j : Int) ls
        else ls) ls k).labelCount := by
    intro x ls k hk
    exact segCell_count orc rng x (k : Int) ls hk
  have hKrow : ∀ (ls : LabelState) (k : Nat), 1 ≤ ls.labelCount →
      1 ≤ ((fun ls (i : Nat) =>
        (List.range Horizon_SCAN.toNat).foldl
          (fun ls (j : Nat) =>
            if ls.labelMat (i : Int) (j : Int) = 0 then
              labelComponents orc rng (i : Int) (j : Int) ls
            else ls) ls) ls k).labelCount := by
    intro ls k hk
    exact foldl_preserves (fun ls' : LabelState => 1 ≤ ls'.labelCount) _
      (fun s a hs => hKcell (k : Int) s a hs) _ ls hk
  -- nonzero at the target after the whole pass
  have hne : ((List.range N_SCAN.toNat).foldl
      (fun ls (i : Nat) =>
        (List.range Horizon_SCAN.toNat).foldl
          (fun ls (j : Nat) =>
            if ls.labelMat (i : Int) (j : Int) = 0 then
              labelComponents orc rng (i : Int) (j : Int) ls
            else ls) ls)
      (⟨lm, lc0⟩ : LabelState)).labelMat (i : Int) (j : Int) ≠ 0 := by
    refine range_foldl_reach _
      (fun ls : LabelState => 1 ≤ ls.labelCount)
      (fun ls : LabelState => ls.labelMat (i : Int) (j : Int) ≠ 0)
      i (fun s k hs => hKrow s k hs) ?_ ?_ N_SCAN.toNat hi
      (⟨lm, lc0⟩ : LabelState) hlc
    · intro s k hs hp
      exact foldl_preserves
        (fun ls' : LabelState => 1 ≤ ls'.labelCount ∧
          ls'.labelMat (i : Int) (j : Int) ≠ 0) _
        (fun s' a hs' => ⟨hKcell (k : Int) s' a hs'.1,
          segCell_keep orc rng (k : Int) (a : Int) (i : Int) (j : Int) s'
            hs'.1 hs'.2⟩)
        _ s ⟨hs, hp⟩ |>.2
    · intro s hs
      refine range_foldl_reach _
        (fun ls : LabelState => 1 ≤ ls.labelCount)
        (fun ls : LabelState => ls.labelMat (i : Int) (j : Int) ≠ 0)
        j (fun s' k hs' => hKcell (i : Int) s' k hs') ?_ ?_
        Horizon_SCAN.toNat hj s hs
      · intro s' k hs' hp'
        exact segCell_keep orc rng (i : Int) (k : Int) (i : Int) (j : Int) s'
          hs' hp'
      · intro s' hs'
        exact segCell_self orc rng (i : Int) (j : Int) s' hs'
  -- pre-pass value or positive label
  have hval : 1 ≤ ((List.range N_SCAN.toNat).foldl
      (fun ls (i : Nat) =>
        (List.range Horizon_SCAN.toNat).foldl
          (fun ls (j : Nat) =>
            if ls.labelMat (i : Int) (j : Int) = 0 then
              labelComponents orc rng (i : Int) (j : Int) ls
            else ls) ls)
      (⟨lm, lc0⟩ : LabelState)).labelCount ∧
      (((List.range N_SCAN.toNat).foldl
      (fun ls (i : Nat) =>
        (List.range Horizon_SCAN.toNat).foldl
          (fun ls (j : Nat) =>
            if ls.labelMat (i : Int) (j : Int) = 0 then
              labelComponents orc rng (i : Int) (j : Int) ls
            else ls) ls)
      (⟨lm, lc0⟩ : LabelState)).labelMat (i : Int) (j : Int) = lm (i : Int) (j : Int) ∨
      1 ≤ ((List.range N_SCAN.toNat).foldl
      (fun ls (i : Nat) =>
        (List.range Horizon_SCAN.toNat).foldl
          (fun ls (j : Nat) =>
            if ls.labelMat (i : Int) (j : Int) = 0 then
              labelComponents orc rng (i : Int) (j : Int) ls
            else ls) ls)
      (⟨lm, lc0⟩ : LabelState)).labelMat (i : Int) (j : Int)) := by
    refine foldl_preserves
      (fun ls' : LabelState => 1 ≤ ls'.labelCount ∧
        (ls'.labelMat (i : Int) (j : Int) = lm (i : Int) (j : Int) ∨
          1 ≤ ls'.labelMat (i : Int) (j : Int))) _
      ?_ _ (⟨lm, lc0⟩ : LabelState) ⟨hlc, Or.inl rfl⟩
    intro s k hs
    refine foldl_preserves
      (fun ls' : LabelState => 1 ≤ ls'.labelCount ∧
        (ls'.labelMat (i : Int) (j : Int) = lm (i : Int) (j : Int) ∨
          1 ≤ ls'.labelMat (i : Int) (j : Int))) _
      ?_ _ s hs
    intro s' a hs'
    exact ⟨hKcell (k : Int) s' a hs'.1,
      segCell_val orc rng lm (k : Int) (a : Int) (i : Int) (j : Int) s'
        hs'.1 hs'.2⟩
  have hsa : segmentAll orc rng (⟨lm, lc0⟩ : LabelState) =
      (List.range N_SCAN.toNat).foldl
        (fun ls (i : Nat) =>
          (List.range Horizon_SCAN.toNat).foldl
            (fun ls (j : Nat) =>
              if ls.labelMat (i : Int) (j : Int) = 0 then
                labelComponents orc rng (i : Int) (j : Int) ls
              else ls) ls)
        (⟨lm, lc0⟩ : LabelState) := rfl
  rw [hsa]
  refine ⟨hne, ?_⟩
  rcases hval.2 with h | h
  · rcases hcell with h0 | h0
    · rw [h, h0] at hne
      exact absurd rfl hne
    · rw [h, h0]
      exact Or.inl rfl
  · exact Or.inr h

/-- Witness for C10: cell (0,0) of the empty scan's grids. -/
theorem c10_no_zero_label_witness :
    (segmentAll trueSegOracle (fun _ _ => FLT_MAX)
        (⟨emptyLabel, 1⟩ : LabelState)).labelMat
        (((0 : Nat) : Int)) (((0 : Nat) : Int)) ≠ 0 ∧
    ((segmentAll trueSegOracle (fun _ _ => FLT_MAX)
        (⟨emptyLabel, 1⟩ : LabelState)).labelMat
        (((0 : Nat) : Int)) (((0 : Nat) : Int)) = -1 ∨
      1 ≤ (segmentAll trueSegOracle (fun _ _ => FLT_MAX)
        (⟨emptyLabel, 1⟩ : LabelState)).labelMat
        (((0 : Nat) : Int)) (((0 : Nat) : Int))) :=
  c10_no_zero_label trueSegOracle (fun _ _ => FLT_MAX) emptyLabel 1 (by decide)
    0 0 (by decide) (by decide) (Or.inr (by decide))

/-- Fold preservation with membership. -/
theorem foldl_preserves_mem {σ α : Type} (P : σ → Prop) (f : σ → α → σ)
    (l : List α) (h : ∀ s a, a ∈ l → P s → P (f s a)) :
    ∀ s, P s → P (l.foldl f s) := by
  induction l with
  | nil =>
    intro s hs
    exact hs
  | cons a l ih =>
    intro s hs
    exact ih (fun s' b hb hs' => h s' b (List.mem_cons_of_mem a hb) hs')
      (f s a) (h s a (List.mem_cons_self a l) hs)

/-- Pushing a still-unlabelled neighbour preserves the `-1` protection:
the pushed cell's label is `0`, so it cannot be the protected `-1` cell. -/
theorem push_negInv (b : BfsState) (lc : Int) (tx ty i0 j0 : Int)
    (h : NegInv i0 j0 b) (hz : b.labelMat tx ty = 0) :
    NegInv i0 j0
      { labelMat := upd2 b.labelMat tx ty lc
        queueIndX := updN b.queueIndX b.queueEndInd tx
        queueIndY := updN b.queueIndY b.queueEndInd ty
        queueSize := b.queueSize + 1
        queueStartInd := b.queueStartInd
        queueEndInd := b.queueEndInd + 1
        allPushedIndX := updN b.allPushedIndX b.allPushedIndSize tx
        allPushedIndY := updN b.allPushedIndY b.allPushedIndSize ty
        allPushedIndSize := b.allPushedIndSize + 1
        lineCountFlag := upd1 b.lineCountFlag tx true } := by
  rcases h with ⟨h1, h2, h3, h4, h5⟩
  have hne : ¬(tx = i0 ∧ ty = j0) := by
    rintro ⟨hi, hj⟩
    rw [hi, hj, h1] at hz
    cases hz
  refine ⟨?_, ?_, ?_, ?_, ?_⟩
  · dsimp only
    unfold upd2
    rw [if_neg ?_]
    · exact h1
    · rintro ⟨hi, hj⟩
      exact hne ⟨hi.symm, hj.symm⟩
  · dsimp only
    omega
  · dsimp only
    omega
  · dsimp only
    intro k hk1 hk2
    unfold updN
    by_cases hke : k = b.queueEndInd
    · rw [if_pos hke, if_pos hke]
      exact hne
    · rw [if_neg hke, if_neg hke]
      exact h4 k hk1 (by omega)
  · dsimp only
    intro k hk
    unfold updN
    by_cases hke : k = b.allPushedIndSize
    · rw [if_pos hke, if_pos hke]
      exact hne
    · rw [if_neg hke, if_neg hke]
      exact h5 k (by omega)

/-- One neighbour step preserves the `-1` protection. -/
theorem processNeighbor_negInv (orc : SegOracle) (range : Int → Int → ℚ)
    (lc : Int) (fx fy : Int) (b : BfsState) (d : Int × Int) (i0 j0 : Int)
    (h : NegInv i0 j0 b) :
    NegInv i0 j0 (processNeighbor orc range lc fx fy b d) := by
  unfold processNeighbor
  dsimp only
  by_cases hA : fx + d.1 < 0 ∨ fx + d.1 ≥ N_SCAN
  · rw [if_pos hA]
    exact h
  · rw [if_neg hA]
    generalize (if fy + d.2 < 0 then Horizon_SCAN - 1
      else if fy + d.2 ≥ Horizon_SCAN then 0 else fy + d.2) = ty
    by_cases hB : b.labelMat (fx + d.1) ty ≠ 0
    · rw [if_pos hB]
      exact h
    · rw [if_neg hB]
      by_cases hok : (if d.1 = 0 then
          orc.gateX (max (range fx fy) (range (fx + d.1) ty))
            (min (range fx fy) (range (fx + d.1) ty))
        else
          orc.gateY (max (range fx fy) (range (fx + d.1) ty))
            (min (range fx fy) (range (fx + d.1) ty))) = true
      · rw [if_pos hok]
        exact push_negInv b lc (fx + d.1) ty i0 j0 h (not_not.mp hB)
      · rw [if_neg hok]
        exact h

/-- One BFS iteration (run only while the queue is non-empty) preserves the
`-1` protection. -/
theorem bfsStep_negInv (orc : SegOracle) (range : Int → Int → ℚ) (lc : Int)
    (b : BfsState) (i0 j0 : Int) (h : NegInv i0 j0 b)
    (hq : b.queueSize ≠ 0) :
    NegInv i0 j0 (bfsStep orc range lc b) := by
  rcases h with ⟨h1, h2, h3, h4, h5⟩
  have hlt : b.queueStartInd < b.queueEndInd := by omega
  have hpop := h4 b.queueStartInd (le_refl _) hlt
  unfold bfsStep
  dsimp only
  refine foldl_preserves (NegInv i0 j0)
    (processNeighbor orc range lc _ _) ?_ neighborIterator _ ?_
  · intro s a hs
    exact processNeighbor_negInv orc range lc _ _ s a i0 j0 hs
  · refine ⟨?_, by dsimp only; omega, by dsimp only; omega, ?_, ?_⟩
    · dsimp only
      unfold upd2
      rw [if_neg ?_]
      · exact h1
      · rintro ⟨hi, hj⟩
        exact hpop ⟨hi.symm, hj.symm⟩
    · dsimp only
      intro k hk1 hk2
      exact h4 k (by omega) hk2
    · dsimp only
      exact h5

/-- The whole BFS loop preserves the `-1` protection. -/
theorem bfsLoop_negInv (orc : SegOracle) (range : Int → Int → ℚ) (lc : Int)
    (fuel : Nat) (b : BfsState) (i0 j0 : Int) (h : NegInv i0 j0 b) :
    NegInv i0 j0 (bfsLoop orc range lc fuel b) := by
  induction fuel generalizing b with
  | zero => exact h
  | succ n ih =>
    have heq : bfsLoop orc range lc (n + 1) b =
        (if b.queueSize = 0 then b
         else bfsLoop orc range lc n (bfsStep orc range lc b)) := rfl
    rw [heq]
    by_cases h0 : b.queueSize = 0
    · rw [if_pos h0]
      exact h
    · rw [if_neg h0]
      exact ih (bfsStep orc range lc b)
        (bfsStep_negInv orc range lc b i0 j0 h h0)

/-- The rejection loop misses a protected cell. -/
theorem rejectRelabel_miss (b : BfsState) (i0 j0 : Int)
    (h : ∀ k, k < b.allPushedIndSize →
      ¬(b.allPushedIndX k = i0 ∧ b.allPushedIndY k = j0)) :
    rejectRelabel b i0 j0 = b.labelMat i0 j0 := by
  unfold rejectRelabel
  refine foldl_preserves_mem
    (fun lm : Int → Int → Int => lm i0 j0 = b.labelMat i0 j0)
    _ _ ?_ _ rfl
  intro lm k hk hlm
  unfold upd2
  rw [if_neg ?_]
  · exact hlm
  · rintro ⟨hi, hj⟩
    exact h k (List.mem_range.mp hk) ⟨hi.symm, hj.symm⟩

/-- A `-1` cell survives one `labelComponents` call launched from a `0`
seed. -/
theorem labelComponents_neg_stable (orc : SegOracle) (range : Int → Int → ℚ)
    (row col : Int) (ls : LabelState) (i0 j0 : Int)
    (hm1 : ls.labelMat i0 j0 = -1) (hseed : ls.labelMat row col = 0) :
    (labelComponents orc range row col ls).labelMat i0 j0 = -1 := by
  have hne : ¬(row = i0 ∧ col = j0) := by
    rintro ⟨hi, hj⟩
    rw [hi, hj, hm1] at hseed
    cases hseed
  have hinit : NegInv i0 j0 (initBfs ls.labelMat row col) := by
    have e1 : (initBfs ls.labelMat row col).queueStartInd = 0 := rfl
    have e2 : (initBfs ls.labelMat row col).queueEndInd = 1 := rfl
    have e3 : (initBfs ls.labelMat row col).queueSize = 1 := rfl
    have e4 : (initBfs ls.labelMat row col).allPushedIndSize = 1 := rfl
    have ex : (initBfs ls.labelMat row col).queueIndX 0 = row := rfl
    have ey : (initBfs ls.labelMat row col).queueIndY 0 = col := rfl
    have px : (initBfs ls.labelMat row col).allPushedIndX 0 = row := rfl
    have py : (initBfs ls.labelMat row col).allPushedIndY 0 = col := rfl
    refine ⟨hm1, ?_, ?_, ?_, ?_⟩
    · rw [e1, e2]
      omega
    · rw [e3, e1, e2]
    · intro k hk1 hk2
      rw [e2] at hk2
      have hk0 : k = 0 := by omega
      subst hk0
      rw [ex, ey]
      exact hne
    · intro k hk
      rw [e4] at hk
      have hk0 : k = 0 := by omega
      subst hk0
      rw [px, py]
      exact hne
  have hinv : NegInv i0 j0 (bfsResult orc range row col ls) :=
    bfsLoop_negInv orc range ls.labelCount bfsFuel
      (initBfs ls.labelMat row col) i0 j0 hinit
  have hb : labelComponents orc range row col ls =
      (if feasibleOf (bfsResult orc range row col ls) = true then
        (⟨(bfsResult orc range row col ls).labelMat, ls.labelCount + 1⟩ : LabelState)
      else ⟨rejectRelabel (bfsResult orc range row col ls), ls.labelCount⟩) := rfl
  rw [hb]
  by_cases hf : feasibleOf (bfsResult orc range row col ls) = true
  · rw [if_pos hf]
    exact hinv.1
  · rw [if_neg hf]
    dsimp only
    rw [rejectRelabel_miss (bfsResult orc range row col ls) i0 j0 hinv.2.2.2.2]
    exact hinv.1

/-- Whole-pass `-1` stability. -/
theorem segmentAll_neg_stable (orc : SegOracle) (rng : Int → Int → ℚ)
    (lm : Int → Int → Int) (lc0 : Int) (i0 j0 : Int)
    (hm1 : lm i0 j0 = -1) :
    (segmentAll orc rng (⟨lm, lc0⟩ : LabelState)).labelMat i0 j0 = -1 := by
  have hsa : segmentAll orc rng (⟨lm, lc0⟩ : LabelState) =
      (List.range N_SCAN.toNat).foldl
        (fun ls (i : Nat) =>
          (List.range Horizon_SCAN.toNat).foldl
            (fun ls (j : Nat) =>
              if ls.labelMat (i : Int) (j : Int) = 0 then
                labelComponents orc rng (i : Int) (j : Int) ls
              else ls) ls)
        (⟨lm, lc0⟩ : LabelState) := rfl
  rw [hsa]
  refine foldl_preserves
    (fun ls : LabelState => ls.labelMat i0 j0 = -1) _ ?_ _
    (⟨lm, lc0⟩ : LabelState) hm1
  intro s k hs
  refine foldl_preserves
    (fun ls : LabelState => ls.labelMat i0 j0 = -1) _ ?_ _ s hs
  intro s' a hs'
  dsimp only
  by_cases hz : s'.labelMat ((k : Nat) : Int) ((a : Nat) : Int) = 0
  · rw [if_pos hz]
    exact labelComponents_neg_stable orc rng _ _ s' i0 j0 hs' hz
  · rw [if_neg hz]
    exact hs'

/-- Whole-pass value classes: each cell ends at its pre-pass value or a
positive label, and `labelCount` stays positive. -/
theorem segmentAll_val (orc : SegOracle) (rng : Int → Int → ℚ)
    (lm : Int → Int → Int) (lc0 : Int) (hlc : 1 ≤ lc0) (i0 j0 : Int) :
    (segmentAll orc rng (⟨lm, lc0⟩ : LabelState)).labelMat i0 j0 = lm i0 j0 ∨
    1 ≤ (segmentAll orc rng (⟨lm, lc0⟩ : LabelState)).labelMat i0 j0 := by
  have hsa : segmentAll orc rng (⟨lm, lc0⟩ : LabelState) =
      (List.range N_SCAN.toNat).foldl
        (fun ls (i : Nat) =>
          (List.range Horizon_SCAN.toNat).foldl
            (fun ls (j : Nat) =>
              if ls.labelMat (i : Int) (j : Int) = 0 then
                labelComponents orc rng (i : Int) (j : Int) ls
              else ls) ls)
        (⟨lm, lc0⟩ : LabelState) := rfl
  rw [hsa]
  refine (foldl_preserves
    (fun ls : LabelState => 1 ≤ ls.labelCount ∧
      (ls.labelMat i0 j0 = lm i0 j0 ∨ 1 ≤ ls.labelMat i0 j0)) _ ?_ _
    (⟨lm, lc0⟩ : LabelState) ⟨hlc, Or.inl rfl⟩).2
  intro s k hs
  refine foldl_preserves
    (fun ls : LabelState => 1 ≤ ls.labelCount ∧
      (ls.labelMat i0 j0 = lm i0 j0 ∨ 1 ≤ ls.labelMat i0 j0)) _ ?_ _ s hs
  intro s' a hs'
  exact ⟨segCell_count orc rng _ _ s' hs'.1,
    segCell_val orc rng lm _ _ i0 j0 s' hs'.1 hs'.2⟩

/-- The `-1` marking rule, pointwise. -/
theorem markGroundAndInvalid_iff (ground : Int → Int → Int)
    (range : Int → Int → ℚ) (label : Int → Int → Int) (i j : Int)
    (hin : 0 ≤ i ∧ i < N_SCAN ∧ 0 ≤ j ∧ j < Horizon_SCAN)
    (hl : label i j ≠ -1) :
    markGroundAndInvalid ground range label i j = -1 ↔
      (ground i j = 1 ∨ range i j = FLT_MAX) := by
  unfold markGroundAndInvalid
  by_cases hc : ground i j = 1 ∨ range i j = FLT_MAX
  · rw [if_pos ⟨hin.1, hin.2.1, hin.2.2.1, hin.2.2.2, hc⟩]
    exact ⟨fun _ => hc, fun _ => rfl⟩
  · rw [if_neg (fun hh => hc hh.2.2.2.2)]
    exact ⟨fun h => absurd h hl, fun h => absurd h hc⟩

/-- C4: after the ground-classification pass, and still after the
labelling pass of segmentation, an in-range cell's label is `-1` exactly
when its ground flag is `1` or its range is the `FLT_MAX` default — the
marking pass writes `-1` exactly on such cells, the BFS never pushes,
pops or relabels a `-1` cell (pushes require label `0`), and every label
write during segmentation is positive. -/
theorem c4_invalid_iff (gate : GroundGate) (gsub : Bool) (orc : SegOracle)
    (s : IPState) (lc0 : Int) (i j : Int)
    (hin : 0 ≤ i ∧ i < N_SCAN ∧ 0 ≤ j ∧ j < Horizon_SCAN)
    (hl0 : s.labelMat i j = 0) (hlc : 1 ≤ lc0) :
    ((groundRemoval gate gsub s).labelMat i j = -1 ↔
      ((groundRemoval gate gsub s).groundMat i j = 1 ∨
        (groundRemoval gate gsub s).rangeMat i j = FLT_MAX)) ∧
    ((segmentAll orc (groundRemoval gate gsub s).rangeMat
        (⟨(groundRemoval gate gsub s).labelMat, lc0⟩ : LabelState)).labelMat i j = -1 ↔
      ((groundRemoval gate gsub s).groundMat i j = 1 ∨
        (groundRemoval gate gsub s).rangeMat i j = FLT_MAX)) := by
  obtain ⟨g, hG⟩ : ∃ g, groundPass1 gate s.fullCloud s.groundMat = g := ⟨_, rfl⟩
  have hgr : groundRemoval gate gsub s =
      { s with
        groundMat := g
        labelMat := markGroundAndInvalid g s.rangeMat s.labelMat
        groundCloud :=
          if gsub then
            s.groundCloud ++ extractGroundCloud g s.fullCloud
          else s.groundCloud } := by
    rw [← hG]
    rfl
  have p1 : ({ s with
        groundMat := g
        labelMat := markGroundAndInvalid g s.rangeMat s.labelMat
        groundCloud :=
          if gsub then
            s.groundCloud ++ extractGroundCloud g s.fullCloud
          else s.groundCloud } : IPState).labelMat =
      markGroundAndInvalid g s.rangeMat s.labelMat := rfl
  have p2 : ({ s with
        groundMat := g
        labelMat := markGroundAndInvalid g s.rangeMat s.labelMat
        groundCloud :=
          if gsub then
            s.groundCloud ++ extractGroundCloud g s.fullCloud
          else s.groundCloud } : IPState).groundMat = g := rfl
  have p3 : ({ s with
        groundMat := g
        labelMat := markGroundAndInvalid g s.rangeMat s.labelMat
        groundCloud :=
          if gsub then
            s.groundCloud ++ extractGroundCloud g s.fullCloud
          else s.groundCloud } : IPState).rangeMat = s.rangeMat := rfl
  rw [hgr, p1, p2, p3]
  have hmark := markGroundAndInvalid_iff g s.rangeMat s.labelMat i j hin
    (by omega)
  refine ⟨hmark, ?_⟩
  constructor
  · intro h
    rcases segmentAll_val orc s.rangeMat
      (markGroundAndInvalid g s.rangeMat s.labelMat) lc0 hlc i j with hv | hv
    · rw [hv] at h
      exact hmark.mp h
    · rw [h] at hv
      omega
  · intro h
    exact segmentAll_neg_stable orc s.rangeMat _ lc0 i j (hmark.mpr h)

/-- Witness for C4: cell (0,0) of a freshly allocated state with a
never-accepting ground gate. -/
theorem c4_invalid_witness :
    ((groundRemoval (fun _ _ => false) false allocatedState).labelMat 0 0 = -1 ↔
      ((groundRemoval (fun _ _ => false) false allocatedState).groundMat 0 0 = 1 ∨
        (groundRemoval (fun _ _ => false) false allocatedState).rangeMat 0 0 =
          FLT_MAX)) ∧
    ((segmentAll trueSegOracle
        (groundRemoval (fun _ _ => false) false allocatedState).rangeMat
        (⟨(groundRemoval (fun _ _ => false) false allocatedState).labelMat,
          1⟩ : LabelState)).labelMat 0 0 = -1 ↔
      ((groundRemoval (fun _ _ => false) false allocatedState).groundMat 0 0 = 1 ∨
        (groundRemoval (fun _ _ => false) false allocatedState).rangeMat 0 0 =
          FLT_MAX)) :=
  c4_invalid_iff (fun _ _ => false) false trueSegOracle allocatedState 1 0 0
    (by norm_num [N_SCAN, Horizon_SCAN]) rfl (by norm_num)

/-- Pushing an unlabelled in-range neighbour preserves the BFS invariant. -/
theorem push_posInv (lm0 : Int → Int → Int) (lc : Int) (b : BfsState)
    (tx ty : Int) (h : PosInv lm0 lc b) (hz : b.labelMat tx ty = 0)
    (hlc : 1 ≤ lc) (hin : InRange tx ty) :
    PosInv lm0 lc
      { labelMat := upd2 b.labelMat tx ty lc
        queueIndX := updN b.queueIndX b.queueEndInd tx
        queueIndY := updN b.queueIndY b.queueEndInd ty
        queueSize := b.queueSize + 1
        queueStartInd := b.queueStartInd
        queueEndInd := b.queueEndInd + 1
        allPushedIndX := updN b.allPushedIndX b.allPushedIndSize tx
        allPushedIndY := updN b.allPushedIndY b.allPushedIndSize ty
        allPushedIndSize := b.allPushedIndSize + 1
        lineCountFlag := upd1 b.lineCountFlag tx true } := by
  obtain ⟨h1, h2, h3, h4, h5⟩ := h
  have hlm0 : lm0 tx ty = 0 := by
    rcases h5 tx ty with h | ⟨hl, -⟩
    · rw [← h]
      exact hz
    · rw [hz] at hl
      omega
  refine ⟨?_, ?_, ?_, ?_, ?_⟩
  · dsimp only
    omega
  · dsimp only
    omega
  · dsimp only
    intro k hk1 hk2
    unfold updN
    by_cases hke : k = b.queueEndInd
    · rw [if_pos hke, if_pos hke]
      refine ⟨hlm0, b.allPushedIndSize, by omega, ?_, ?_⟩
      · rw [if_pos rfl]
      · rw [if_pos rfl]
    · rw [if_neg hke, if_neg hke]
      obtain ⟨hz0, m, hm, hmx, hmy⟩ := h3 k hk1 (by omega)
      refine ⟨hz0, m, by omega, ?_, ?_⟩
      · rw [if_neg (by omega)]
        exact hmx
      · rw [if_neg (by omega)]
        exact hmy
  · dsimp only
    intro m hm
    unfold updN
    by_cases hme : m = b.allPushedIndSize
    · rw [if_pos hme, if_pos hme]
      exact ⟨hlm0, hin⟩
    · rw [if_neg hme, if_neg hme]
      exact h4 m (by omega)
  · dsimp only
    intro i j
    unfold upd2 updN
    by_cases hij : i = tx ∧ j = ty
    · rw [if_pos hij]
      refine Or.inr ⟨rfl, b.allPushedIndSize, by omega, ?_, ?_⟩
      · rw [if_pos rfl]
        exact hij.1.symm
      · rw [if_pos rfl]
        exact hij.2.symm
    · rw [if_neg hij]
      rcases h5 i j with h | ⟨hl, m, hm, hmx, hmy⟩
      · exact Or.inl h
      · refine Or.inr ⟨hl, m, by omega, ?_, ?_⟩
        · rw [if_neg (by omega)]
          exact hmx
        · rw [if_neg (by omega)]
          exact hmy

/-- One neighbour step preserves the BFS invariant. -/
theorem processNeighbor_posInv (orc : SegOracle) (range : Int → Int → ℚ)
    (lm0 : Int → Int → Int) (lc : Int) (fx fy : Int) (b : BfsState)
    (d : Int × Int) (h : PosInv lm0 lc b) (hlc : 1 ≤ lc) :
    PosInv lm0 lc (processNeighbor orc range lc fx fy b d) := by
  unfold processNeighbor
  dsimp only
  by_cases hA : fx + d.1 < 0 ∨ fx + d.1 ≥ N_SCAN
  · rw [if_pos hA]
    exact h
  · rw [if_neg hA]
    push_neg at hA
    generalize hty : (if fy + d.2 < 0 then Horizon_SCAN - 1
      else if fy + d.2 ≥ Horizon_SCAN then 0 else fy + d.2) = ty
    have hHpos : (0 : Int) < Horizon_SCAN := by norm_num [Horizon_SCAN]
    have htyb : 0 ≤ ty ∧ ty < Horizon_SCAN := by
      split_ifs at hty with hy1 hy2
      · omega
      · omega
      · omega
    by_cases hB : b.labelMat (fx + d.1) ty ≠ 0
    · rw [if_pos hB]
      exact h
    · rw [if_neg hB]
      by_cases hok : (if d.1 = 0 then
          orc.gateX (max (range fx fy) (range (fx + d.1) ty))
            (min (range fx fy) (range (fx + d.1) ty))
        else
          orc.gateY (max (range fx fy) (range (fx + d.1) ty))
            (min (range fx fy) (range (fx + d.1) ty))) = true
      · rw [if_pos hok]
        exact push_posInv lm0 lc b (fx + d.1) ty h (not_not.mp hB) hlc
          ⟨by omega, by omega, htyb.1, htyb.2⟩
      · rw [if_neg hok]
        exact h

/-- One BFS iteration (run only while the queue is non-empty) preserves
the invariant: the popped cell is a recorded, call-time-unlabelled cell. -/
theorem bfsStep_posInv (orc : SegOracle) (range : Int → Int → ℚ)
    (lm0 : Int → Int → Int) (lc : Int) (b : BfsState)
    (h : PosInv lm0 lc b) (hlc : 1 ≤ lc) (hq : b.queueSize ≠ 0) :
    PosInv lm0 lc (bfsStep orc range lc b) := by
  obtain ⟨h1, h2, h3, h4, h5⟩ := h
  have hlt : b.queueStartInd < b.queueEndInd := by omega
  obtain ⟨hpz, mp, hmp, hmpx, hmpy⟩ := h3 b.queueStartInd (le_refl _) hlt
  unfold bfsStep
  dsimp only
  refine foldl_preserves (PosInv lm0 lc)
    (processNeighbor orc range lc _ _) ?_ neighborIterator _ ?_
  · intro s a hs
    exact processNeighbor_posInv orc range lm0 lc _ _ s a hs hlc
  · refine ⟨by dsimp only; omega, by dsimp only; omega, ?_, ?_, ?_⟩
    · dsimp only
      intro k hk1 hk2
      exact h3 k (by omega) hk2
    · dsimp only
      exact h4
    · dsimp only
      intro i j
      unfold upd2
      by_cases hij : i = b.queueIndX b.queueStartInd ∧
          j = b.queueIndY b.queueStartInd
      · rw [if_pos hij]
        refine Or.inr ⟨rfl, mp, hmp, ?_, ?_⟩
        · rw [hmpx, ← hij.1]
        · rw [hmpy, ← hij.2]
      · rw [if_neg hij]
        exact h5 i j

/-- The whole BFS loop preserves the invariant. -/
theorem bfsLoop_posInv (orc : SegOracle) (range : Int → Int → ℚ)
    (lm0 : Int → Int → Int) (lc : Int) (fuel : Nat) (b : BfsState)
    (h : PosInv lm0 lc b) (hlc : 1 ≤ lc) :
    PosInv lm0 lc (bfsLoop orc range lc fuel b) := by
  induction fuel generalizing b with
  | zero => exact h
  | succ n ih =>
    have heq : bfsLoop orc range lc (n + 1) b =
        (if b.queueSize = 0 then b
         else bfsLoop orc range lc n (bfsStep orc range lc b)) := rfl
    rw [heq]
    by_cases h0 : b.queueSize = 0
    · rw [if_pos h0]
      exact h
    · rw [if_neg h0]
      exact ih (bfsStep orc range lc b)
        (bfsStep_posInv orc range lm0 lc b h hlc h0)

/-- The seed starts the BFS satisfying the invariant. -/
theorem initBfs_posInv (lm0 : Int → Int → Int) (lc : Int) (row col : Int)
    (hseed : lm0 row col = 0) (hin : InRange row col) :
    PosInv lm0 lc (initBfs lm0 row col) := by
  have e1 : (initBfs lm0 row col).queueStartInd = 0 := rfl
  have e2 : (initBfs lm0 row col).queueEndInd = 1 := rfl
  have e3 : (initBfs lm0 row col).queueSize = 1 := rfl
  have e4 : (initBfs lm0 row col).allPushedIndSize = 1 := rfl
  have ex : (initBfs lm0 row col).queueIndX 0 = row := rfl
  have ey : (initBfs lm0 row col).queueIndY 0 = col := rfl
  have px : (initBfs lm0 row col).allPushedIndX 0 = row := rfl
  have py : (initBfs lm0 row col).allPushedIndY 0 = col := rfl
  refine ⟨?_, ?_, ?_, ?_, ?_⟩
  · rw [e1, e2]
    omega
  · rw [e3, e1, e2]
  · intro k hk1 hk2
    rw [e2] at hk2
    have hk0 : k = 0 := by omega
    subst hk0
    rw [ex, ey, e4]
    exact ⟨hseed, 0, by omega, px, py⟩
  · intro m hm
    rw [e4] at hm
    have hm0 : m = 0 := by omega
    subst hm0
    rw [px, py]
    exact ⟨hseed, hin⟩
  · intro i j
    exact Or.inl rfl

/-- The BFS always labels its seed with the fresh id. -/
theorem bfsResult_seed (orc : SegOracle) (range : Int → Int → ℚ)
    (row col : Int) (ls : LabelState) :
    (bfsResult orc range row col ls).labelMat row col = ls.labelCount := by
  have hstep1 : bfsResult orc range row col ls =
      bfsLoop orc range ls.labelCount (N_SCAN * Horizon_SCAN).toNat
        (bfsStep orc range ls.labelCount (initBfs ls.labelMat row col)) := by
    have h1 : bfsResult orc range row col ls =
        (if (initBfs ls.labelMat row col).queueSize = 0 then
          initBfs ls.labelMat row col
         else bfsLoop orc range ls.labelCount (N_SCAN * Horizon_SCAN).toNat
           (bfsStep orc range ls.labelCount (initBfs ls.labelMat row col))) := rfl
    have h2 : (initBfs ls.labelMat row col).queueSize = 1 := rfl
    rw [h1, if_neg (by rw [h2]; omega)]
  have hfx : (initBfs ls.labelMat row col).queueIndX
      (initBfs ls.labelMat row col).queueStartInd = row := rfl
  have hfy : (initBfs ls.labelMat row col).queueIndY
      (initBfs ls.labelMat row col).queueStartInd = col := rfl
  have hseed1 : (bfsStep orc range ls.labelCount
      (initBfs ls.labelMat row col)).labelMat row col = ls.labelCount := by
    unfold bfsStep
    dsimp only
    refine foldl_preserves (fun b' : BfsState => b'.labelMat row col = ls.labelCount)
      _ ?_ neighborIterator _ ?_
    · intro s a hs
      rcases processNeighbor_label orc range ls.labelCount _ _ s a row col with
        h | h
      · rw [h]
        exact hs
      · exact h
    · dsimp only
      rw [hfx, hfy]
      unfold upd2
      rw [if_pos ⟨rfl, rfl⟩]
  rw [hstep1]
  rcases bfsLoop_label orc range ls.labelCount (N_SCAN * Horizon_SCAN).toNat
    (bfsStep orc range ls.labelCount (initBfs ls.labelMat row col)) row col with
    h | h
  · exact h.trans hseed1
  · exact h

/-- The full per-call id bookkeeping: one `labelComponents` call keeps the
positive non-sentinel labels a dense initial range and keeps every such
id attained by an in-range cell. -/
theorem labelComponents_ids (orc : SegOracle) (range : Int → Int → ℚ)
    (row col : Int) (ls : LabelState)
    (hseed : ls.labelMat row col = 0) (hin : InRange row col)
    (h1c : 1 ≤ ls.labelCount) (hlt : ls.labelCount < SENTINEL_DROP)
    (hmem : ∀ i j : Int, ls.labelMat i j = -1 ∨ ls.labelMat i j = 0 ∨
      ls.labelMat i j = SENTINEL_DROP ∨
      (1 ≤ ls.labelMat i j ∧ ls.labelMat i j < ls.labelCount))
    (hatt : ∀ v : Int, 1 ≤ v → v < ls.labelCount →
      ∃ i j : Int, InRange i j ∧ ls.labelMat i j = v) :
    1 ≤ (labelComponents orc range row col ls).labelCount ∧
    (labelComponents orc range row col ls).labelCount ≤ ls.labelCount + 1 ∧
    (∀ i j : Int, (labelComponents orc range row col ls).labelMat i j = -1 ∨
      (labelComponents orc range row col ls).labelMat i j = 0 ∨
      (labelComponents orc range row col ls).labelMat i j = SENTINEL_DROP ∨
      (1 ≤ (labelComponents orc range row col ls).labelMat i j ∧
        (labelComponents orc range row col ls).labelMat i j <
          (labelComponents orc range row col ls).labelCount)) ∧
    (∀ v : Int, 1 ≤ v → v < (labelComponents orc range row col ls).labelCount →
      ∃ i j : Int, InRange i j ∧
        (labelComponents orc range row col ls).labelMat i j = v) := by
  have hpos : PosInv ls.labelMat ls.labelCount (bfsResult orc range row col ls) :=
    bfsLoop_posInv orc range ls.labelMat ls.labelCount bfsFuel
      (initBfs ls.labelMat row col)
      (initBfs_posInv ls.labelMat ls.labelCount row col hseed hin) h1c
  obtain ⟨-, -, -, h4, h5⟩ := hpos
  have hseedlc := bfsResult_seed orc range row col ls
  have hb : labelComponents orc range row col ls =
      (if feasibleOf (bfsResult orc range row col ls) = true then
        (⟨(bfsResult orc range row col ls).labelMat, ls.labelCount + 1⟩ : LabelState)
      else ⟨rejectRelabel (bfsResult orc range row col ls), ls.labelCount⟩) := rfl
  rw [hb]
  by_cases hf : feasibleOf (bfsResult orc range row col ls) = true
  · rw [if_pos hf]
    dsimp only
    refine ⟨by omega, by omega, ?_, ?_⟩
    · intro i j
      rcases h5 i j with h | ⟨hl, -⟩
      · rw [h]
        rcases hmem i j with hm | hm | hm | hm
        · exact Or.inl hm
        · exact Or.inr (Or.inl hm)
        · exact Or.inr (Or.inr (Or.inl hm))
        · exact Or.inr (Or.inr (Or.inr ⟨hm.1, by omega⟩))
      · rw [hl]
        exact Or.inr (Or.inr (Or.inr ⟨h1c, by omega⟩))
    · intro v hv1 hv2
      by_cases hveq : v = ls.labelCount
      · subst hveq
        exact ⟨row, col, hin, hseedlc⟩
      · obtain ⟨i, j, hij, hlm⟩ := hatt v hv1 (by omega)
        refine ⟨i, j, hij, ?_⟩
        rcases h5 i j with h | ⟨-, m, hm, hmx, hmy⟩
        · rw [h]
          exact hlm
        · obtain ⟨hz0, -⟩ := h4 m hm
          rw [hmx, hmy] at hz0
          rw [hz0] at hlm
          omega
  · rw [if_neg hf]
    dsimp only
    refine ⟨by omega, by omega, ?_, ?_⟩
    · intro i j
      by_cases hap : ∃ m, m < (bfsResult orc range row col ls).allPushedIndSize ∧
          (bfsResult orc range row col ls).allPushedIndX m = i ∧
          (bfsResult orc range row col ls).allPushedIndY m = j
      · obtain ⟨m, hm, hmx, hmy⟩ := hap
        have := rejectRelabel_hits (bfsResult orc range row col ls)
          (bfsResult orc range row col ls).allPushedIndSize i j ⟨m, hm, hmx, hmy⟩
        exact Or.inr (Or.inr (Or.inl this))
      · push_neg at hap
        have hmiss := rejectRelabel_miss (bfsResult orc range row col ls) i j
          (fun k hk hc => hap k hk hc.1 hc.2)
        rw [hmiss]
        rcases h5 i j with h | ⟨-, m, hm, hmx, hmy⟩
        · rw [h]
          rcases hmem i j with hm | hm | hm | hm
          · exact Or.inl hm
          · exact Or.inr (Or.inl hm)
          · exact Or.inr (Or.inr (Or.inl hm))
          · exact Or.inr (Or.inr (Or.inr hm))
        · exact absurd hmy (hap m hm hmx)
    · intro v hv1 hv2
      obtain ⟨i, j, hij, hlm⟩ := hatt v hv1 hv2
      refine ⟨i, j, hij, ?_⟩
      have hap : ∀ m, m < (bfsResult orc range row col ls).allPushedIndSize →
          ¬((bfsResult orc range row col ls).allPushedIndX m = i ∧
            (bfsResult orc range row col ls).allPushedIndY m = j) := by
        intro m hm hc
        obtain ⟨hz0, -⟩ := h4 m hm
        rw [hc.1, hc.2] at hz0
        rw [hz0] at hlm
        omega
      have hmiss := rejectRelabel_miss (bfsResult orc range row col ls) i j hap
      rw [hmiss]
      rcases h5 i j with h | ⟨-, m, hm, hmx, hmy⟩
      · rw [h]
        exact hlm
      · exact absurd ⟨hmx, hmy⟩ (hap m hm)

/-- Attained dense ids are bounded by the cell count plus one. -/
theorem attain_bound (lm : Int → Int → Int) (lc : Int)
    (hatt : ∀ v : Int, 1 ≤ v → v < lc →
      ∃ i j : Int, InRange i j ∧ lm i j = v) :
    lc ≤ 28801 := by
  by_contra hgt
  push_neg at hgt
  have hf : ∀ v : ℤ, ∃ p : ℤ × ℤ, 1 ≤ v → v < lc →
      InRange p.1 p.2 ∧ lm p.1 p.2 = v := by
    intro v
    by_cases hv : 1 ≤ v ∧ v < lc
    · obtain ⟨i, j, hij, hlm⟩ := hatt v hv.1 hv.2
      exact ⟨(i, j), fun _ _ => ⟨hij, hlm⟩⟩
    · exact ⟨(0, 0), fun h1 h2 => absurd ⟨h1, h2⟩ hv⟩
  choose f hfp using hf
  have hN : N_SCAN = 16 := rfl
  have hH : Horizon_SCAN = 1800 := rfl
  have hcard : (Finset.Icc (1 : ℤ) (lc - 1)).card ≤
      ((Finset.Icc (0 : ℤ) 15) ×ˢ (Finset.Icc (0 : ℤ) 1799)).card := by
    refine Finset.card_le_card_of_injOn f ?_ ?_
    · intro v hv
      rw [Finset.mem_Icc] at hv
      obtain ⟨⟨ha, hb, hc, hd⟩, -⟩ := hfp v hv.1 (by omega)
      rw [Finset.mem_product, Finset.mem_Icc, Finset.mem_Icc]
      omega
    · intro a ha b hb hab
      rw [Finset.coe_Icc, Set.mem_Icc] at ha hb
      obtain ⟨-, h1⟩ := hfp a ha.1 (by omega)
      obtain ⟨-, h2⟩ := hfp b hb.1 (by omega)
      rw [hab] at h1
      exact h1.symm.trans h2
  rw [Finset.card_product, Int.card_Icc, Int.card_Icc, Int.card_Icc] at hcard
  norm_num at hcard
  omega

/-- Every pure-cloud point records its in-range cell's positive
non-sentinel label as intensity. -/
theorem pureCloudOf_mem (label : Int → Int → Int) (full : Int → Pt) :
    ∀ p ∈ pureCloudOf label full, ∃ i j : Int, InRange i j ∧
      0 < label i j ∧ label i j ≠ SENTINEL_DROP ∧
      p.intensity = (label i j : ℚ) := by
  unfold pureCloudOf
  have hN : ((N_SCAN.toNat : Nat) : Int) = N_SCAN := by norm_num [N_SCAN]
  have hH : ((Horizon_SCAN.toNat : Nat) : Int) = Horizon_SCAN := by
    norm_num [Horizon_SCAN]
  refine foldl_preserves_mem
    (fun acc : List Pt => ∀ p ∈ acc, ∃ i j : Int, InRange i j ∧
      0 < label i j ∧ label i j ≠ SENTINEL_DROP ∧
      p.intensity = (label i j : ℚ)) _ _ ?_ _ ?_
  · intro acc i hi hacc
    refine foldl_preserves_mem
      (fun acc : List Pt => ∀ p ∈ acc, ∃ i j : Int, InRange i j ∧
        0 < label i j ∧ label i j ≠ SENTINEL_DROP ∧
        p.intensity = (label i j : ℚ)) _ _ ?_ _ hacc
    intro acc2 j hj hacc2
    dsimp only
    by_cases hc : label (i : Int) (j : Int) > 0 ∧
        label (i : Int) (j : Int) ≠ SENTINEL_DROP
    · rw [if_pos hc]
      intro p hp
      rcases List.mem_append.mp hp with hp | hp
      · exact hacc2 p hp
      · rw [List.mem_singleton] at hp
        subst hp
        have hi' := List.mem_range.mp hi
        have hj' := List.mem_range.mp hj
        have hi2 : (i : Int) < N_SCAN := by
          rw [← hN]
          exact_mod_cast hi'
        have hj2 : (j : Int) < Horizon_SCAN := by
          rw [← hH]
          exact_mod_cast hj'
        exact ⟨(i : Int), (j : Int), ⟨by omega, hi2, by omega, hj2⟩,
          hc.1, hc.2, rfl⟩
    · rw [if_neg hc]
      exact hacc2
  · intro p hp
    cases hp

/-- C5: after the labelling pass, entered with `labelCount = 1` and a
ground-marked grid (every cell `-1` or `0`), the positive non-sentinel
labels form the dense initial range `1 … labelCount - 1`: `labelCount`
stays positive, every cell is `-1`, `0`, the sentinel or a positive id
below `labelCount`, every id in `[1, labelCount)` is attained by an
in-range cell, and every pure-cloud point carries its cell's positive
non-sentinel label as intensity. -/
theorem c5_dense_ids (orc : SegOracle) (rng : Int → Int → ℚ)
    (lm : Int → Int → Int) (full : Int → Pt)
    (hmem0 : ∀ i j : Int, lm i j = -1 ∨ lm i j = 0) :
    1 ≤ (segmentAll orc rng (⟨lm, 1⟩ : LabelState)).labelCount ∧
    (∀ i j : Int,
      (segmentAll orc rng (⟨lm, 1⟩ : LabelState)).labelMat i j = -1 ∨
      (segmentAll orc rng (⟨lm, 1⟩ : LabelState)).labelMat i j = 0 ∨
      (segmentAll orc rng (⟨lm, 1⟩ : LabelState)).labelMat i j = SENTINEL_DROP ∨
      (1 ≤ (segmentAll orc rng (⟨lm, 1⟩ : LabelState)).labelMat i j ∧
        (segmentAll orc rng (⟨lm, 1⟩ : LabelState)).labelMat i j <
          (segmentAll orc rng (⟨lm, 1⟩ : LabelState)).labelCount)) ∧
    (∀ v : Int, 1 ≤ v →
      v < (segmentAll orc rng (⟨lm, 1⟩ : LabelState)).labelCount →
      ∃ i j : Int, InRange i j ∧
        (segmentAll orc rng (⟨lm, 1⟩ : LabelState)).labelMat i j = v) ∧
    (∀ p ∈ pureCloudOf (segmentAll orc rng (⟨lm, 1⟩ : LabelState)).labelMat full,
      ∃ i j : Int, InRange i j ∧
        0 < (segmentAll orc rng (⟨lm, 1⟩ : LabelState)).labelMat i j ∧
        (segmentAll orc rng (⟨lm, 1⟩ : LabelState)).labelMat i j ≠
          SENTINEL_DROP ∧
        p.intensity =
          ((segmentAll orc rng (⟨lm, 1⟩ : LabelState)).labelMat i j : ℚ)) := by
  have hsa : segmentAll orc rng (⟨lm, 1⟩ : LabelState) =
      (List.range N_SCAN.toNat).foldl
        (fun ls (i : Nat) =>
          (List.range Horizon_SCAN.toNat).foldl
            (fun ls (j : Nat) =>
              if ls.labelMat (i : Int) (j : Int) = 0 then
                labelComponents orc rng (i : Int) (j : Int) ls
              else ls) ls)
        (⟨lm, 1⟩ : LabelState) := rfl
  have hN : ((N_SCAN.toNat : Nat) : Int) = N_SCAN := by norm_num [N_SCAN]
  have hH : ((Horizon_SCAN.toNat : Nat) : Int) = Horizon_SCAN := by
    norm_num [Horizon_SCAN]
  have hS : SENTINEL_DROP = 999999 := rfl
  have hinv : (fun ls : LabelState => 1 ≤ ls.labelCount ∧
      (∀ i j : Int, ls.labelMat i j = -1 ∨ ls.labelMat i j = 0 ∨
        ls.labelMat i j = SENTINEL_DROP ∨
        (1 ≤ ls.labelMat i j ∧ ls.labelMat i j < ls.labelCount)) ∧
      (∀ v : Int, 1 ≤ v → v < ls.labelCount →
        ∃ i j : Int, InRange i j ∧ ls.labelMat i j = v))
      ((List.range N_SCAN.toNat).foldl
        (fun ls (i : Nat) =>
          (List.range Horizon_SCAN.toNat).foldl
            (fun ls (j : Nat) =>
              if ls.labelMat (i : Int) (j : Int) = 0 then
                labelComponents orc rng (i : Int) (j : Int) ls
              else ls) ls)
        (⟨lm, 1⟩ : LabelState)) := by
    have hstart : 1 ≤ ((⟨lm, 1⟩ : LabelState)).labelCount ∧
        (∀ i j : Int, ((⟨lm, 1⟩ : LabelState)).labelMat i j = -1 ∨
          ((⟨lm, 1⟩ : LabelState)).labelMat i j = 0 ∨
          ((⟨lm, 1⟩ : LabelState)).labelMat i j = SENTINEL_DROP ∨
          (1 ≤ ((⟨lm, 1⟩ : LabelState)).labelMat i j ∧
            ((⟨lm, 1⟩ : LabelState)).labelMat i j <
              ((⟨lm, 1⟩ : LabelState)).labelCount)) ∧
        (∀ v : Int, 1 ≤ v → v < ((⟨lm, 1⟩ : LabelState)).labelCount →
          ∃ i j : Int, InRange i j ∧
            ((⟨lm, 1⟩ : LabelState)).labelMat i j = v) := by
      refine ⟨le_refl 1, ?_, ?_⟩
      · intro i j
        rcases hmem0 i j with h | h
        · exact Or.inl h
        · exact Or.inr (Or.inl h)
      · intro v hv1 hv2
        have hv3 : v < 1 := hv2
        omega
    refine foldl_preserves_mem (fun ls : LabelState => 1 ≤ ls.labelCount ∧
      (∀ i j : Int, ls.labelMat i j = -1 ∨ ls.labelMat i j = 0 ∨
        ls.labelMat i j = SENTINEL_DROP ∨
        (1 ≤ ls.labelMat i j ∧ ls.labelMat i j < ls.labelCount)) ∧
      (∀ v : Int, 1 ≤ v → v < ls.labelCount →
        ∃ i j : Int, InRange i j ∧ ls.labelMat i j = v)) _ _ ?_ _ hstart
    intro s i hi hs
    refine foldl_preserves_mem (fun ls : LabelState => 1 ≤ ls.labelCount ∧
      (∀ i j : Int, ls.labelMat i j = -1 ∨ ls.labelMat i j = 0 ∨
        ls.labelMat i j = SENTINEL_DROP ∨
        (1 ≤ ls.labelMat i j ∧ ls.labelMat i j < ls.labelCount)) ∧
      (∀ v : Int, 1 ≤ v → v < ls.labelCount →
        ∃ i j : Int, InRange i j ∧ ls.labelMat i j = v)) _ _ ?_ _ hs
    intro s' j hj hs'
    dsimp only
    by_cases hz : s'.labelMat (i : Int) (j : Int) = 0
    · rw [if_pos hz]
      have hi' := List.mem_range.mp hi
      have hj' := List.mem_range.mp hj
      have hi2 : (i : Int) < N_SCAN := by
        rw [← hN]
        exact_mod_cast hi'
      have hj2 : (j : Int) < Horizon_SCAN := by
        rw [← hH]
        exact_mod_cast hj'
      have hbound := attain_bound s'.labelMat s'.labelCount hs'.2.2
      obtain ⟨c1, c2, c3, c4⟩ := labelComponents_ids orc rng (i : Int) (j : Int)
        s' hz ⟨by omega, hi2, by omega, hj2⟩ hs'.1 (by omega) hs'.2.1 hs'.2.2
      exact ⟨c1, c3, c4⟩
    · rw [if_neg hz]
      exact hs'
  rw [hsa]
  refine ⟨hinv.1, hinv.2.1, hinv.2.2, ?_⟩
  exact pureCloudOf_mem _ full

/-- Witness for C5: the all-invalid grid. -/
theorem c5_dense_ids_witness :
    1 ≤ (segmentAll trueSegOracle (fun _ _ => FLT_MAX)
      (⟨fun _ _ => -1, 1⟩ : LabelState)).labelCount ∧
    (∀ i j : Int,
      (segmentAll trueSegOracle (fun _ _ => FLT_MAX)
        (⟨fun _ _ => -1, 1⟩ : LabelState)).labelMat i j = -1 ∨
      (segmentAll trueSegOracle (fun _ _ => FLT_MAX)
        (⟨fun _ _ => -1, 1⟩ : LabelState)).labelMat i j = 0 ∨
      (segmentAll trueSegOracle (fun _ _ => FLT_MAX)
        (⟨fun _ _ => -1, 1⟩ : LabelState)).labelMat i j = SENTINEL_DROP ∨
      (1 ≤ (segmentAll trueSegOracle (fun _ _ => FLT_MAX)
        (⟨fun _ _ => -1, 1⟩ : LabelState)).labelMat i j ∧
        (segmentAll trueSegOracle (fun _ _ => FLT_MAX)
          (⟨fun _ _ => -1, 1⟩ : LabelState)).labelMat i j <
          (segmentAll trueSegOracle (fun _ _ => FLT_MAX)
            (⟨fun _ _ => -1, 1⟩ : LabelState)).labelCount)) ∧
    (∀ v : Int, 1 ≤ v →
      v < (segmentAll trueSegOracle (fun _ _ => FLT_MAX)
        (⟨fun _ _ => -1, 1⟩ : LabelState)).labelCount →
      ∃ i j : Int, InRange i j ∧
        (segmentAll trueSegOracle (fun _ _ => FLT_MAX)
          (⟨fun _ _ => -1, 1⟩ : LabelState)).labelMat i j = v) ∧
    (∀ p ∈ pureCloudOf (segmentAll trueSegOracle (fun _ _ => FLT_MAX)
        (⟨fun _ _ => -1, 1⟩ : LabelState)).labelMat (fun _ => nanPoint),
      ∃ i j : Int, InRange i j ∧
        0 < (segmentAll trueSegOracle (fun _ _ => FLT_MAX)
          (⟨fun _ _ => -1, 1⟩ : LabelState)).labelMat i j ∧
        (segmentAll trueSegOracle (fun _ _ => FLT_MAX)
          (⟨fun _ _ => -1, 1⟩ : LabelState)).labelMat i j ≠ SENTINEL_DROP ∧
        p.intensity = ((segmentAll trueSegOracle (fun _ _ => FLT_MAX)
          (⟨fun _ _ => -1, 1⟩ : LabelState)).labelMat i j : ℚ)) :=
  c5_dense_ids trueSegOracle (fun _ _ => FLT_MAX) (fun _ _ => -1)
    (fun _ => nanPoint) (fun _ _ => Or.inl rfl)

end LegoLoam
